import Mathlib

/-!
# Dynamic database credentials: `pathCredsCreateRead`

A shallow embedding of `builtin/logical/database/path_creds_create.go`.

The request handler is a straight-line program over a backend that holds a
read/write mutex and a pool of connection handles.  It is embedded as a
function from the backend state at entry to the Go result pair, the backend
state at exit and the log of the calls it made, each log entry carrying the
backend state in which the call was issued.  A run that would wait on the
mutex for ever in isolation has no result (`none`).

The collaborators that live outside the file (storage lookups, the system
view, the plugin) are fields of `Env`.  The helpers of the backend that the
handler calls and that are defined elsewhere in the repository are modelled
from the specification and marked so.

For concurrent calls the handler is also given as a machine `Pc.step` that
makes one call of the log at a time; `soloRun_eq` shows that the machine run
alone is the function `pathCredsCreateRead`, and `Sys.exec` interleaves several
calls on one backend.
-/

namespace Database

/-! ## Data model -/

/-- A `time.Duration`: a signed count of nanoseconds.  The handler only
compares durations and passes them on, so no machine arithmetic is involved. -/
abbrev Duration := Int

/-- A `time.Time`, as nanoseconds since an epoch. -/
abbrev Time := Int

/-- The value `time.Hour`. -/
def Hour : Duration := 3600000000000

/-- A `dbplugin.Database` handle, identified by a number. -/
abbrev Handle := Nat

/-- A `dbplugin.Statements` value, opaque to the handler. -/
abbrev Statements := List String

/-- Go `error` values, as far as the handler can tell them apart. -/
inductive GoError where
  /-- The package variable `logical.ErrPermissionDenied`. -/
  | ErrPermissionDenied
  /-- A value built by `fmt.Errorf` with the given message. -/
  | Errorf (msg : String)
  /-- Any other error value, with an identity and its message. -/
  | other (id : Nat) (msg : String)
  deriving DecidableEq, Repr

/-- The method `Error()` of an error value. -/
def GoError.Error : GoError → String
  | .ErrPermissionDenied => "permission denied"
  | .Errorf msg => msg
  | .other _ msg => msg

/-- The fields of a role entry that the handler reads. -/
structure roleEntry where
  DBName : String
  Statements : Statements
  DefaultTTL : Duration
  MaxTTL : Duration
  deriving DecidableEq, Repr

/-- The field of a `DatabaseConfig` that the handler reads. -/
structure DatabaseConfig where
  AllowedRoles : List String
  deriving DecidableEq, Repr

/-- The field of a `logical.Request` that the handler reads. -/
structure Request where
  DisplayName : String
  deriving DecidableEq, Repr

/-- A `dbplugin.UsernameConfig`. -/
structure UsernameConfig where
  DisplayName : String
  RoleName : String
  deriving DecidableEq, Repr

/-- A `logical.Secret`, with the fields the handler sets. -/
structure Secret where
  InternalData : List (String × String)
  TTL : Duration
  deriving DecidableEq, Repr

/-- A `logical.Response`. -/
structure Response where
  Secret : Option Secret
  Data : List (String × String)
  deriving DecidableEq, Repr

/-- The Go result pair `(*logical.Response, error)`; `none` is `nil`. -/
abbrev Result := Option Response × Option GoError

/-- A `sync.RWMutex` as explicit state: the number of shared holders and
whether the exclusive lock is held. -/
structure RWMutex where
  readers : Nat
  writer : Bool
  deriving DecidableEq, Repr

/-- The state of a `databaseBackend`: its embedded mutex and its pool of
connections, keyed by database name. -/
structure databaseBackend where
  mu : RWMutex
  connections : List (String × Handle)
  deriving DecidableEq, Repr

/-- The collaborators of the handler. -/
structure Env where
  /-- The lookup `b.Role(ctx, req.Storage, name)`. -/
  Role : String → Except GoError (Option roleEntry)
  /-- The lookup `b.DatabaseConfig(ctx, req.Storage, name)`. -/
  DatabaseConfig : String → Except GoError DatabaseConfig
  /-- The matcher `glob.Glob(pattern, subject)` behind `StrListContainsGlob`. -/
  Glob : String → String → Bool
  /-- The construction of a connection for a database name: plugin start and
  initialisation, which can fail. -/
  newConnection : String → Except GoError Handle
  /-- The plugin call `db.CreateUser(ctx, statements, usernameConfig, expiration)`. -/
  CreateUser : Handle → Statements → UsernameConfig → Time → Except GoError (String × String)
  /-- The value of `b.System().DefaultLeaseTTL()`. -/
  DefaultLeaseTTL : Duration
  /-- The value of `b.System().MaxLeaseTTL()`. -/
  MaxLeaseTTL : Duration
  /-- The value of `time.Now()`. -/
  Now : Time
  /-- The predicate on errors by which the invalidation step recognises a
  connection that is no longer usable. -/
  IsConnectionFatal : GoError → Bool

/-- The calls a run makes, in the order it makes them. -/
inductive Event where
  | Role (name : String)
  | DatabaseConfig (name : String)
  | RLock
  | RUnlock
  | Lock
  | Unlock
  | getDBObj (name : String)
  | createDBObj (name : String)
  | newConnection (name : String)
  | CreateUser (db : Handle) (statements : Statements) (config : UsernameConfig)
      (expiration : Time)
  | closeIfShutdown (name : String) (err : GoError)
  | clearConnection (name : String)
  deriving DecidableEq, Repr

/-- One logged call together with the backend state in which it was issued. -/
structure Entry where
  ev : Event
  pre : databaseBackend
  deriving DecidableEq, Repr

/-- The running state of a request: the backend and the log so far. -/
structure St where
  b : databaseBackend
  log : List Entry
  deriving DecidableEq, Repr

/-- Append a call to the log, stamped with the current backend state. -/
def St.emit (s : St) (e : Event) : St :=
  { s with log := s.log ++ [⟨e, s.b⟩] }

/-! ## The mutex -/

/-- Take a shared hold; waits while the exclusive lock is held. -/
def RWMutex.RLock (m : RWMutex) : Option RWMutex :=
  if m.writer then none else some { m with readers := m.readers + 1 }

/-- Give up a shared hold; a fault when there is none. -/
def RWMutex.RUnlock (m : RWMutex) : Option RWMutex :=
  if m.readers = 0 then none else some { m with readers := m.readers - 1 }

/-- Take the exclusive lock; waits while anybody holds the mutex. -/
def RWMutex.Lock (m : RWMutex) : Option RWMutex :=
  if m.writer || m.readers != 0 then none else some { m with writer := true }

/-- Give up the exclusive lock; a fault when it is not held. -/
def RWMutex.Unlock (m : RWMutex) : Option RWMutex :=
  if m.writer then some { m with writer := false } else none

/-- The call `b.RLock()`. -/
def RLock (s : St) : Option St :=
  match s.b.mu.RLock with
  | none => none
  | some mu => some { b := { s.b with mu := mu }, log := s.log ++ [⟨.RLock, s.b⟩] }

/-- The call `b.RUnlock()`. -/
def RUnlock (s : St) : Option St :=
  match s.b.mu.RUnlock with
  | none => none
  | some mu => some { b := { s.b with mu := mu }, log := s.log ++ [⟨.RUnlock, s.b⟩] }

/-- The call `b.Lock()`. -/
def Lock (s : St) : Option St :=
  match s.b.mu.Lock with
  | none => none
  | some mu => some { b := { s.b with mu := mu }, log := s.log ++ [⟨.Lock, s.b⟩] }

/-- The call `b.Unlock()`. -/
def Unlock (s : St) : Option St :=
  match s.b.mu.Unlock with
  | none => none
  | some mu => some { b := { s.b with mu := mu }, log := s.log ++ [⟨.Unlock, s.b⟩] }

/-! ## Helpers defined elsewhere in the repository -/

/-- Modelled from the spec: `strutil.StrListContains` is not in the file; the
pattern set "contains" a string when one of its items equals it. -/
def StrListContains : List String → String → Bool
  | [], _ => false
  | item :: haystack, needle => if item = needle then true else StrListContains haystack needle

/-- Modelled from the spec: `strutil.StrListContainsGlob` is not in the file;
the pattern set "contains a glob pattern matching the role name" when one of
its items matches it under the glob matcher. -/
def StrListContainsGlob (glob : String → String → Bool) : List String → String → Bool
  | [], _ => false
  | item :: haystack, needle =>
    if glob item needle then true else StrListContainsGlob glob haystack needle

/-- Look a name up in the pool. -/
def lookupConn : List (String × Handle) → String → Option Handle
  | [], _ => none
  | (k, h) :: rest, name => if k = name then some h else lookupConn rest name

/-- Modelled from the spec: `getDBObj` is not in the file; it reports the live
handle of the pool for the target name, if one exists. -/
def getDBObj (name : String) (s : St) : Option Handle × St :=
  (lookupConn s.b.connections name, s.emit (.getDBObj name))

/-- Modelled from the spec: `createDBObj` is not in the file; with the
exclusive lock held it checks again whether a handle exists, and otherwise
constructs a new handle, which can fail, and on success inserts it into the
pool. -/
def createDBObj (env : Env) (name : String) (s : St) : Except GoError Handle × St :=
  let s := s.emit (.createDBObj name)
  match lookupConn s.b.connections name with
  | some db => (.ok db, s)
  | none =>
    let s := s.emit (.newConnection name)
    match env.newConnection name with
    | .error err => (.error err, s)
    | .ok db => (.ok db, { s with b := { s.b with connections := (name, db) :: s.b.connections } })

/-- Remove a name from the pool. -/
def clearConnection (name : String) (s : St) : St :=
  let s := s.emit (.clearConnection name)
  { s with b := { s.b with connections := s.b.connections.filter (fun kv => kv.1 != name) } }

/-- Modelled from the spec: `closeIfShutdown` is not in the file; when the
error signals that the connection is no longer usable, the handle is removed
from the pool under the exclusive lock. -/
def closeIfShutdown (env : Env) (name : String) (err : GoError) (s : St) : Option St :=
  let s := s.emit (.closeIfShutdown name err)
  if env.IsConnectionFatal err then
    match Lock s with
    | none => none
    | some s => Unlock (clearConnection name s)
  else some s

/-- Modelled from the spec: `logical.ErrorResponse` is not in the file; a
response that carries only the user-facing error text. -/
def ErrorResponse (text : String) : Response :=
  { Secret := none, Data := [("error", text)] }

/-- Modelled from the spec: `b.Secret(SecretCredsType).Response` is not in the
file; a response with the public data and a secret holding the internal data,
its TTL not yet set by the handler. -/
def SecretResponse (data internal : List (String × String)) : Response :=
  { Secret := some { InternalData := internal, TTL := 0 }, Data := data }

/-- The assignment `resp.Secret.TTL = ttl`. -/
def Response.setTTL (resp : Response) (ttl : Duration) : Response :=
  { resp with Secret := resp.Secret.map (fun sec => { sec with TTL := ttl }) }

/-! ## The handler -/

/-- Lines 77 to 87: the lease TTL, by the assignments of the source. -/
def leaseTTL (env : Env) (role : roleEntry) : Duration :=
  let ttl := env.DefaultLeaseTTL
  let ttl := if role.DefaultTTL != 0 then role.DefaultTTL else ttl
  let maxTTL := env.MaxLeaseTTL
  let maxTTL := if role.MaxTTL != 0 && role.MaxTTL < maxTTL then role.MaxTTL else maxTTL
  let ttl := if ttl > maxTTL then maxTTL else ttl
  ttl

/-- Lines 77 to 114 of `pathCredsCreateRead`: what the handler does once it
holds a handle `db` and the matching `unlockFunc`. -/
def issueCreds (env : Env) (req : Request) (name : String) (role : roleEntry)
    (db : Handle) (unlockFunc : St → Option St) (s : St) : Option (Result × St) :=
  let ttl := leaseTTL env role
  let expiration := env.Now + ttl
  let usernameConfig : UsernameConfig := { DisplayName := req.DisplayName, RoleName := name }
  let s := s.emit (.CreateUser db role.Statements usernameConfig expiration)
  match env.CreateUser db role.Statements usernameConfig expiration with
  | .error err =>
    match unlockFunc s with
    | none => none
    | some s =>
      match closeIfShutdown env role.DBName err s with
      | none => none
      | some s => some ((none, some err), s)
  | .ok (username, password) =>
    let resp := SecretResponse [("username", username), ("password", password)]
      [("username", username), ("role", name)]
    let resp := resp.setTTL ttl
    match unlockFunc s with
    | none => none
    | some s => some ((some resp, none), s)

/-- The operation function returned by `pathCredsCreateRead`, run on the
backend state `b` for the role `name`. -/
def pathCredsCreateRead (env : Env) (req : Request) (name : String)
    (b : databaseBackend) : Option (Result × St) :=
  let s : St := { b := b, log := [] }
  let s := s.emit (.Role name)
  match env.Role name with
  | .error err => some ((none, some err), s)
  | .ok none => some ((some (ErrorResponse ("unknown role: " ++ name)), none), s)
  | .ok (some role) =>
    let s := s.emit (.DatabaseConfig role.DBName)
    match env.DatabaseConfig role.DBName with
    | .error err => some ((none, some err), s)
    | .ok dbConfig =>
      if (!StrListContains dbConfig.AllowedRoles "*"
          && !StrListContainsGlob env.Glob dbConfig.AllowedRoles name) = true then
        some ((none, some .ErrPermissionDenied), s)
      else
        match RLock s with
        | none => none
        | some s =>
          match getDBObj role.DBName s with
          | (some db, s) => issueCreds env req name role db RUnlock s
          | (none, s) =>
            match RUnlock s with
            | none => none
            | some s =>
              match Lock s with
              | none => none
              | some s =>
                match createDBObj env role.DBName s with
                | (.error err, s) =>
                  match Unlock s with
                  | none => none
                  | some s =>
                    some ((none, some (.Errorf ("cound not retrieve db with name: "
                      ++ role.DBName ++ ", got error: " ++ err.Error))), s)
                | (.ok db, s) => issueCreds env req name role db Unlock s

/-! ## The words of the specification -/

/-- The effective TTL in the words of the specification, from the role's
default and maximum (`d`, `m`) and the system's (`D`, `M`). -/
def specEffectiveTTL (d m D M : Duration) : Duration :=
  let ttl0 := if d ≠ 0 then d else D
  let maxTTL := if m ≠ 0 ∧ m < M then m else M
  if ttl0 > maxTTL then maxTTL else ttl0

/-- The resolved maximum TTL in the words of the specification. -/
def specMaxTTL (m M : Duration) : Duration :=
  if m ≠ 0 ∧ m < M then m else M

/-- The allow-list excludes the role, in the words of the specification: it
neither contains the literal `*` nor contains a glob pattern that matches the
role name. -/
def excluded (env : Env) (cfg : DatabaseConfig) (name : String) : Prop :=
  "*" ∉ cfg.AllowedRoles ∧ ¬ ∃ p ∈ cfg.AllowedRoles, env.Glob p name = true

/-! ## The exit paths of the handler -/

/-- The backend with one more shared holder of the mutex. -/
def sharedHeld (b : databaseBackend) : databaseBackend :=
  { b with mu := { b.mu with readers := b.mu.readers + 1 } }

/-- The backend with the exclusive lock held. -/
def exclusiveHeld (b : databaseBackend) : databaseBackend :=
  { b with mu := { b.mu with writer := true } }

/-- The backend with the handle `db` inserted into the pool for `name`. -/
def withConn (b : databaseBackend) (name : String) (db : Handle) : databaseBackend :=
  { b with connections := (name, db) :: b.connections }

/-- The backend with the handles for `name` removed from the pool. -/
def withoutConn (b : databaseBackend) (name : String) : databaseBackend :=
  { b with connections := b.connections.filter (fun kv => kv.1 != name) }

/-- The `CreateUser` call the handler makes on the handle `db`. -/
def createUserEvent (env : Env) (req : Request) (name : String) (role : roleEntry)
    (db : Handle) : Event :=
  .CreateUser db role.Statements { DisplayName := req.DisplayName, RoleName := name }
    (env.Now + leaseTTL env role)

/-- The response the handler builds from the credentials the plugin returned. -/
def credsResponse (env : Env) (name : String) (role : roleEntry) (username password : String) :
    Response :=
  (SecretResponse [("username", username), ("password", password)]
    [("username", username), ("role", name)]).setTTL (leaseTTL env role)

/-- The permission gate of line 53, as the condition under which the handler goes on. -/
def allowed (env : Env) (cfg : DatabaseConfig) (name : String) : Bool :=
  StrListContains cfg.AllowedRoles "*" || StrListContainsGlob env.Glob cfg.AllowedRoles name

/-- The calls of `closeIfShutdown` entered in the backend state `b` with a free mutex. -/
def closeLog (env : Env) (name : String) (err : GoError) (b : databaseBackend) : List Entry :=
  ⟨.closeIfShutdown name err, b⟩ ::
    (if env.IsConnectionFatal err then
      [⟨.Lock, b⟩, ⟨.clearConnection name, exclusiveHeld b⟩,
        ⟨.Unlock, exclusiveHeld (withoutConn b name)⟩]
    else [])

/-- The backend after `closeIfShutdown` entered in the backend state `b`. -/
def closeState (env : Env) (name : String) (err : GoError) (b : databaseBackend) :
    databaseBackend :=
  if env.IsConnectionFatal err then withoutConn b name else b

/-- The two storage lookups that open the log of a run for an existing role. -/
def lookups (name : String) (role : roleEntry) (b : databaseBackend) : List Entry :=
  [⟨.Role name, b⟩, ⟨.DatabaseConfig role.DBName, b⟩]

/-- The exit paths of the handler: `Run env req name b res s` holds when the handler,
entered on the backend `b`, returns `res` by one of its return statements and leaves
the state and log `s`.  `run_iff_Run` shows that these are exactly its returning runs. -/
inductive Run (env : Env) (req : Request) (name : String) (b : databaseBackend) :
    Result → St → Prop
  | roleError (err : GoError) (hrole : env.Role name = .error err) :
      Run env req name b (none, some err) ⟨b, [⟨.Role name, b⟩]⟩
  | unknownRole (hrole : env.Role name = .ok none) :
      Run env req name b (some (ErrorResponse ("unknown role: " ++ name)), none)
        ⟨b, [⟨.Role name, b⟩]⟩
  | configError (role : roleEntry) (err : GoError) (hrole : env.Role name = .ok (some role))
      (hcfg : env.DatabaseConfig role.DBName = .error err) :
      Run env req name b (none, some err) ⟨b, lookups name role b⟩
  | denied (role : roleEntry) (cfg : DatabaseConfig) (hrole : env.Role name = .ok (some role))
      (hcfg : env.DatabaseConfig role.DBName = .ok cfg) (hgate : allowed env cfg name = false) :
      Run env req name b (none, some .ErrPermissionDenied) ⟨b, lookups name role b⟩
  | reuseOk (role : roleEntry) (cfg : DatabaseConfig) (db : Handle) (username password : String)
      (hrole : env.Role name = .ok (some role))
      (hcfg : env.DatabaseConfig role.DBName = .ok cfg) (hgate : allowed env cfg name = true)
      (hw : b.mu.writer = false)
      (hget : lookupConn b.connections role.DBName = some db)
      (hcu : env.CreateUser db role.Statements ⟨req.DisplayName, name⟩
        (env.Now + leaseTTL env role) = .ok (username, password)) :
      Run env req name b (some (credsResponse env name role username password), none)
        ⟨b, lookups name role b ++ [⟨.RLock, b⟩, ⟨.getDBObj role.DBName, sharedHeld b⟩,
          ⟨createUserEvent env req name role db, sharedHeld b⟩, ⟨.RUnlock, sharedHeld b⟩]⟩
  | reuseFail (role : roleEntry) (cfg : DatabaseConfig) (db : Handle) (err : GoError)
      (hrole : env.Role name = .ok (some role))
      (hcfg : env.DatabaseConfig role.DBName = .ok cfg) (hgate : allowed env cfg name = true)
      (hw : b.mu.writer = false)
      (hget : lookupConn b.connections role.DBName = some db)
      (hcu : env.CreateUser db role.Statements ⟨req.DisplayName, name⟩
        (env.Now + leaseTTL env role) = .error err)
      (hr : env.IsConnectionFatal err = true → b.mu.readers = 0) :
      Run env req name b (none, some err)
        ⟨closeState env role.DBName err b,
          lookups name role b ++ [⟨.RLock, b⟩, ⟨.getDBObj role.DBName, sharedHeld b⟩,
            ⟨createUserEvent env req name role db, sharedHeld b⟩, ⟨.RUnlock, sharedHeld b⟩]
            ++ closeLog env role.DBName err b⟩
  | createError (role : roleEntry) (cfg : DatabaseConfig) (err : GoError)
      (hrole : env.Role name = .ok (some role))
      (hcfg : env.DatabaseConfig role.DBName = .ok cfg) (hgate : allowed env cfg name = true)
      (hw : b.mu.writer = false) (hr : b.mu.readers = 0)
      (hget : lookupConn b.connections role.DBName = none)
      (hnew : env.newConnection role.DBName = .error err) :
      Run env req name b
        (none, some (.Errorf ("cound not retrieve db with name: " ++ role.DBName
          ++ ", got error: " ++ err.Error)))
        ⟨b, lookups name role b ++ [⟨.RLock, b⟩, ⟨.getDBObj role.DBName, sharedHeld b⟩,
          ⟨.RUnlock, sharedHeld b⟩, ⟨.Lock, b⟩, ⟨.createDBObj role.DBName, exclusiveHeld b⟩,
          ⟨.newConnection role.DBName, exclusiveHeld b⟩,
          ⟨.Unlock, exclusiveHeld b⟩]⟩
  | createOk (role : roleEntry) (cfg : DatabaseConfig) (db : Handle) (username password : String)
      (hrole : env.Role name = .ok (some role))
      (hcfg : env.DatabaseConfig role.DBName = .ok cfg) (hgate : allowed env cfg name = true)
      (hw : b.mu.writer = false) (hr : b.mu.readers = 0)
      (hget : lookupConn b.connections role.DBName = none)
      (hnew : env.newConnection role.DBName = .ok db)
      (hcu : env.CreateUser db role.Statements ⟨req.DisplayName, name⟩
        (env.Now + leaseTTL env role) = .ok (username, password)) :
      Run env req name b (some (credsResponse env name role username password), none)
        ⟨withConn b role.DBName db,
          lookups name role b ++ [⟨.RLock, b⟩, ⟨.getDBObj role.DBName, sharedHeld b⟩,
            ⟨.RUnlock, sharedHeld b⟩, ⟨.Lock, b⟩, ⟨.createDBObj role.DBName, exclusiveHeld b⟩,
            ⟨.newConnection role.DBName, exclusiveHeld b⟩,
            ⟨createUserEvent env req name role db, exclusiveHeld (withConn b role.DBName db)⟩,
            ⟨.Unlock, exclusiveHeld (withConn b role.DBName db)⟩]⟩
  | createFail (role : roleEntry) (cfg : DatabaseConfig) (db : Handle) (err : GoError)
      (hrole : env.Role name = .ok (some role))
      (hcfg : env.DatabaseConfig role.DBName = .ok cfg) (hgate : allowed env cfg name = true)
      (hw : b.mu.writer = false) (hr : b.mu.readers = 0)
      (hget : lookupConn b.connections role.DBName = none)
      (hnew : env.newConnection role.DBName = .ok db)
      (hcu : env.CreateUser db role.Statements ⟨req.DisplayName, name⟩
        (env.Now + leaseTTL env role) = .error err) :
      Run env req name b (none, some err)
        ⟨closeState env role.DBName err (withConn b role.DBName db),
          lookups name role b ++ [⟨.RLock, b⟩, ⟨.getDBObj role.DBName, sharedHeld b⟩,
            ⟨.RUnlock, sharedHeld b⟩, ⟨.Lock, b⟩, ⟨.createDBObj role.DBName, exclusiveHeld b⟩,
            ⟨.newConnection role.DBName, exclusiveHeld b⟩,
            ⟨createUserEvent env req name role db, exclusiveHeld (withConn b role.DBName db)⟩,
            ⟨.Unlock, exclusiveHeld (withConn b role.DBName db)⟩]
            ++ closeLog env role.DBName err (withConn b role.DBName db)⟩

/-- The expiration handed to the plugin, for a `CreateUser` call. -/
def Event.expiration : Event → Option Time
  | .CreateUser _ _ _ expiration => some expiration
  | _ => none

/-- Whether a call is the invalidation step. -/
def Event.isCloseIfShutdown : Event → Bool
  | .closeIfShutdown _ _ => true
  | _ => false

/-- How often a call occurs in a log. -/
def countEv (e : Event) (log : List Entry) : Nat :=
  log.countP (fun x => decide (x.ev = e))

/-! ## Concurrent calls

The same handler as a machine that takes one call of the log at a time, so
that several calls can be interleaved on one backend. -/

/-- The point a call of the handler has reached: the call it makes next, with
the local variables that are live there. -/
inductive Pc where
  /-- Line 38: `b.Role`. -/
  | entry
  /-- Line 46: `b.DatabaseConfig`, then the permission gate. -/
  | loadConfig (role : roleEntry)
  /-- Line 58: `b.RLock()`. -/
  | acquire (role : roleEntry)
  /-- Line 62: `b.getDBObj`. -/
  | lookup (role : roleEntry)
  /-- Line 65: `b.RUnlock()`. -/
  | release (role : roleEntry)
  /-- Line 66: `b.Lock()`. -/
  | upgrade (role : roleEntry)
  /-- Line 70: `b.createDBObj`, up to its check of the pool. -/
  | create (role : roleEntry)
  /-- Inside `createDBObj`: the construction of the connection. -/
  | construct (role : roleEntry)
  /-- Inside `createDBObj`: the insertion of the new handle into the pool. -/
  | insert (role : roleEntry) (db : Handle)
  /-- Line 72: `unlockFunc()` after a failed `createDBObj`. -/
  | createFailed (role : roleEntry) (err : GoError)
  /-- Lines 77 to 97: the TTL and `db.CreateUser`; `exclusive` tells whether
  `unlockFunc` is `b.Unlock` rather than `b.RUnlock`. -/
  | createUser (role : roleEntry) (db : Handle) (exclusive : Bool)
  /-- Line 99: `unlockFunc()` after a failed `CreateUser`. -/
  | userFailed (role : roleEntry) (err : GoError) (exclusive : Bool)
  /-- Line 100: `b.closeIfShutdown`, up to its test of the error. -/
  | invalidate (role : roleEntry) (err : GoError)
  /-- Inside `closeIfShutdown`: `b.Lock()`. -/
  | invalidateLock (role : roleEntry) (err : GoError)
  /-- Inside `closeIfShutdown`: `b.clearConnection`. -/
  | invalidateClear (role : roleEntry) (err : GoError)
  /-- Inside `closeIfShutdown`: `b.Unlock()`, then line 101. -/
  | invalidateUnlock (err : GoError)
  /-- Line 113: `unlockFunc()` on success, then line 114. -/
  | userOk (resp : Response) (exclusive : Bool)
  /-- The call has returned. -/
  | returned (res : Result)
  deriving DecidableEq, Repr

/-- The value of `unlockFunc`. -/
def unlockFunc (exclusive : Bool) : St → Option St :=
  if exclusive then Unlock else RUnlock

/-- One call of a request for the role `name` at the point `pc`, on the shared
state `s`: the next point and the state after the call, or nothing when the
call has returned or has to wait for the mutex. -/
def Pc.step (env : Env) (req : Request) (name : String) : Pc → St → Option (Pc × St)
  | .entry, s =>
    let s := s.emit (.Role name)
    match env.Role name with
    | .error err => some (.returned (none, some err), s)
    | .ok none => some (.returned (some (ErrorResponse ("unknown role: " ++ name)), none), s)
    | .ok (some role) => some (.loadConfig role, s)
  | .loadConfig role, s =>
    let s := s.emit (.DatabaseConfig role.DBName)
    match env.DatabaseConfig role.DBName with
    | .error err => some (.returned (none, some err), s)
    | .ok dbConfig =>
      if (!StrListContains dbConfig.AllowedRoles "*"
          && !StrListContainsGlob env.Glob dbConfig.AllowedRoles name) = true then
        some (.returned (none, some .ErrPermissionDenied), s)
      else some (.acquire role, s)
  | .acquire role, s => (RLock s).map (fun s => (.lookup role, s))
  | .lookup role, s =>
    match getDBObj role.DBName s with
    | (some db, s) => some (.createUser role db false, s)
    | (none, s) => some (.release role, s)
  | .release role, s => (RUnlock s).map (fun s => (.upgrade role, s))
  | .upgrade role, s => (Lock s).map (fun s => (.create role, s))
  | .create role, s =>
    let s := s.emit (.createDBObj role.DBName)
    match lookupConn s.b.connections role.DBName with
    | some db => some (.createUser role db true, s)
    | none => some (.construct role, s)
  | .construct role, s =>
    let s := s.emit (.newConnection role.DBName)
    match env.newConnection role.DBName with
    | .error err => some (.createFailed role err, s)
    | .ok db => some (.insert role db, s)
  | .insert role db, s =>
    some (.createUser role db true,
      { s with b := { s.b with connections := (role.DBName, db) :: s.b.connections } })
  | .createFailed role err, s =>
    (Unlock s).map (fun s =>
      (.returned (none, some (.Errorf ("cound not retrieve db with name: "
        ++ role.DBName ++ ", got error: " ++ err.Error))), s))
  | .createUser role db exclusive, s =>
    let ttl := leaseTTL env role
    let expiration := env.Now + ttl
    let usernameConfig : UsernameConfig := { DisplayName := req.DisplayName, RoleName := name }
    let s := s.emit (.CreateUser db role.Statements usernameConfig expiration)
    match env.CreateUser db role.Statements usernameConfig expiration with
    | .error err => some (.userFailed role err exclusive, s)
    | .ok (username, password) =>
      let resp := SecretResponse [("username", username), ("password", password)]
        [("username", username), ("role", name)]
      some (.userOk (resp.setTTL ttl) exclusive, s)
  | .userFailed role err exclusive, s =>
    (unlockFunc exclusive s).map (fun s => (.invalidate role err, s))
  | .invalidate role err, s =>
    let s := s.emit (.closeIfShutdown role.DBName err)
    if env.IsConnectionFatal err then some (.invalidateLock role err, s)
    else some (.returned (none, some err), s)
  | .invalidateLock role err, s => (Lock s).map (fun s => (.invalidateClear role err, s))
  | .invalidateClear role err, s => some (.invalidateUnlock err, clearConnection role.DBName s)
  | .invalidateUnlock err, s => (Unlock s).map (fun s => (.returned (none, some err), s))
  | .userOk resp exclusive, s =>
    (unlockFunc exclusive s).map (fun s => (.returned (some resp, none), s))
  | .returned _, _ => none

/-- One call run alone to its return, for at most `fuel` calls of the log. -/
def soloRun (env : Env) (req : Request) (name : String) : Nat → Pc → St → Option (Result × St)
  | _, .returned res, s => some (res, s)
  | 0, _, _ => none
  | fuel + 1, pc, s =>
    match pc.step env req name s with
    | none => none
    | some (pc1, s1) => soloRun env req name fuel pc1 s1

/-- A call in flight: its request, its role name and the point it has reached. -/
structure Thread where
  req : Request
  name : String
  pc : Pc
  deriving DecidableEq, Repr

/-- Several calls in flight on one backend, with the common log. -/
structure Sys where
  st : St
  threads : List Thread
  deriving DecidableEq, Repr

/-- The calls `calls` at their entry, on the backend `b`. -/
def Sys.init (b : databaseBackend) (calls : List (Request × String)) : Sys :=
  { st := { b := b, log := [] },
    threads := calls.map (fun c => { req := c.1, name := c.2, pc := .entry }) }

/-- The call number `i` takes its next step; nothing when there is no such
call, when it has returned or when it has to wait for the mutex. -/
def Sys.step (env : Env) (i : Nat) (σ : Sys) : Option Sys :=
  match σ.threads[i]? with
  | none => none
  | some t =>
    match t.pc.step env t.req t.name σ.st with
    | none => none
    | some (pc, st) => some { st := st, threads := σ.threads.set i { t with pc := pc } }

/-- The calls take steps in the order of the schedule. -/
def Sys.exec (env : Env) : List Nat → Sys → Option Sys
  | [], σ => some σ
  | i :: sched, σ =>
    match Sys.step env i σ with
    | none => none
    | some σ1 => Sys.exec env sched σ1

/-- Whether a call has returned. -/
def Pc.isReturned : Pc → Bool
  | .returned _ => true
  | _ => false

/-- Whether a call has returned a secret with a nil error. -/
def Pc.isSuccess : Pc → Bool
  | .returned (some resp, none) => resp.Secret.isSome
  | _ => false

/-! ## The invariant of concurrent calls -/

/-- Whether a call at this point holds the mutex shared. -/
def holdsShared : Pc → Nat
  | .lookup _ => 1
  | .release _ => 1
  | .createUser _ _ false => 1
  | .userFailed _ _ false => 1
  | .userOk _ false => 1
  | _ => 0

/-- Whether a call at this point holds the mutex exclusively. -/
def holdsExclusive : Pc → Nat
  | .create _ => 1
  | .construct _ => 1
  | .insert _ _ => 1
  | .createFailed _ _ => 1
  | .createUser _ _ true => 1
  | .userFailed _ _ true => 1
  | .userOk _ true => 1
  | .invalidateClear _ _ => 1
  | .invalidateUnlock _ => 1
  | _ => 0

/-- An upper bound on the number of steps a call at this point still takes. -/
def Pc.rank : Pc → Nat
  | .entry => 15
  | .loadConfig _ => 14
  | .acquire _ => 13
  | .lookup _ => 12
  | .release _ => 11
  | .upgrade _ => 10
  | .create _ => 9
  | .construct _ => 8
  | .insert _ _ => 7
  | .createUser _ _ _ => 6
  | .userFailed _ _ _ => 5
  | .invalidate _ _ => 4
  | .invalidateLock _ _ => 3
  | .invalidateClear _ _ => 2
  | .invalidateUnlock _ => 1
  | .createFailed _ _ => 1
  | .userOk _ _ => 1
  | .returned _ => 0

/-- The role name is that of an existing role of the target `dbn` whose config
loads and admits it. -/
def Admitted (env : Env) (dbn : String) (name : String) : Prop :=
  ∃ role cfg, env.Role name = .ok (some role) ∧ role.DBName = dbn
    ∧ env.DatabaseConfig dbn = .ok cfg ∧ allowed env cfg name = true

/-- What holds of a call at each point while all calls for the target `dbn`
succeed on the one handle `h`; `lk` is the pool's entry for the target and
`cnt` the number of connections constructed for it so far. -/
def Pc.ok (dbn : String) (h : Handle) (lk : Option Handle) (cnt : Nat) : Pc → Prop
  | .entry => True
  | .loadConfig role => role.DBName = dbn
  | .acquire role => role.DBName = dbn
  | .lookup role => role.DBName = dbn
  | .release role => role.DBName = dbn
  | .upgrade role => role.DBName = dbn
  | .create role => role.DBName = dbn ∧ (lk = none → cnt = 0)
  | .construct role => role.DBName = dbn ∧ lk = none ∧ cnt = 0
  | .insert role db => role.DBName = dbn ∧ db = h ∧ lk = none ∧ cnt = 1
  | .createUser role db _ => role.DBName = dbn ∧ db = h ∧ lk = some h ∧ cnt = 1
  | .userOk resp _ => resp.Secret.isSome = true ∧ lk = some h ∧ cnt = 1
  | .returned res =>
    (∃ resp, res = (some resp, none) ∧ resp.Secret.isSome = true) ∧ lk = some h ∧ cnt = 1
  | _ => False

/-- The pool's entry for the target and the number of constructions agree. -/
def PoolOk (h : Handle) (lk : Option Handle) (cnt : Nat) : Prop :=
  (lk = none ∨ lk = some h) ∧ cnt ≤ 1 ∧ (lk = some h → cnt = 1)

/-- What one step of a call does to the shared state, as far as the invariant
of concurrent runs is concerned. -/
structure Effect (dbn : String) (h : Handle) (pc pc1 : Pc) (s s1 : St) : Prop where
  ok : pc1.ok dbn h (lookupConn s1.b.connections dbn) (countEv (.newConnection dbn) s1.log)
  readers : s1.b.mu.readers + holdsShared pc = s.b.mu.readers + holdsShared pc1
  writer : s1.b.mu.writer.toNat + holdsExclusive pc = s.b.mu.writer.toNat + holdsExclusive pc1
  view : (lookupConn s1.b.connections dbn = lookupConn s.b.connections dbn
        ∧ countEv (.newConnection dbn) s1.log = countEv (.newConnection dbn) s.log)
      ∨ (holdsExclusive pc = 1 ∧ lookupConn s.b.connections dbn = none)
  pool : PoolOk h (lookupConn s1.b.connections dbn) (countEv (.newConnection dbn) s1.log)
  free : s1.b.mu.writer = false → lookupConn s1.b.connections dbn = none →
    countEv (.newConnection dbn) s1.log = 0
  users : ∀ x ∈ s1.log, x ∈ s.log ∨ ∀ db st uc ex, x.ev = .CreateUser db st uc ex → db = h

/-- The invariant of concurrent calls for one target `dbn` in an environment
where the connection is constructed as `h` and `CreateUser` succeeds on it. -/
structure Inv (env : Env) (dbn : String) (h : Handle) (σ : Sys) : Prop where
  readers : σ.st.b.mu.readers = (σ.threads.map (fun t => holdsShared t.pc)).sum
  writer : σ.st.b.mu.writer.toNat = (σ.threads.map (fun t => holdsExclusive t.pc)).sum
  pool : PoolOk h (lookupConn σ.st.b.connections dbn) (countEv (.newConnection dbn) σ.st.log)
  free : σ.st.b.mu.writer = false → lookupConn σ.st.b.connections dbn = none →
    countEv (.newConnection dbn) σ.st.log = 0
  users : ∀ x ∈ σ.st.log, ∀ db st uc ex, x.ev = .CreateUser db st uc ex → db = h
  good : ∀ (i : Nat) (t : Thread), σ.threads[i]? = some t →
    Admitted env dbn t.name
      ∧ t.pc.ok dbn h (lookupConn σ.st.b.connections dbn) (countEv (.newConnection dbn) σ.st.log)

/-! ## Sample inputs -/

/-- A matcher for the sample environments: a pattern matches itself, and a
pattern ending in a star matches every subject that starts with the rest. -/
def sampleGlob : List Char → List Char → Bool
  | ['*'], _ => true
  | [], [] => true
  | c :: p, d :: s => c == d && sampleGlob p s
  | _, _ => false

/-- A role of the sample environments, with default TTL `d` and max TTL `m`. -/
def sampleRole (d m : Duration) : roleEntry :=
  { DBName := "pg", Statements := ["CREATE ROLE"], DefaultTTL := d, MaxTTL := m }

/-- A sample environment: the role `readonly` of database `pg` with the given
TTLs, the allow-list `patterns`, and the given outcomes of connection
construction and of `CreateUser`. -/
def sampleEnv (d m : Duration) (patterns : List String) (conn : Except GoError Handle)
    (cu : Except GoError (String × String)) : Env :=
  { Role := fun n =>
      if n = "readonly" then .ok (some (sampleRole d m))
      else if n = "broken" then .error (.other 1 "storage unavailable")
      else .ok none
    DatabaseConfig := fun n =>
      if n = "pg" then .ok { AllowedRoles := patterns }
      else .error (.other 2 "failed to find entry for connection")
    Glob := fun p s => sampleGlob p.toList s.toList
    newConnection := fun _ => conn
    CreateUser := fun _ _ _ _ => cu
    DefaultLeaseTTL := Hour
    MaxLeaseTTL := 24 * Hour
    Now := 1000
    IsConnectionFatal := fun e => decide (e = .other 9 "connection is shut down") }

/-- A backend with a free mutex and an empty pool. -/
def idleBackend : databaseBackend := { mu := ⟨0, false⟩, connections := [] }

/-- A backend with a free mutex and a live handle for `pg`. -/
def pooledBackend : databaseBackend := { mu := ⟨0, false⟩, connections := [("pg", 7)] }

/-- A sample request. -/
def sampleReq : Request := { DisplayName := "token" }

/-- The secret response of the sample runs that succeed. -/
def sampleCreds (ttl : Duration) : Response :=
  { Secret := some { InternalData := [("username", "v-readonly"), ("role", "readonly")],
                     TTL := ttl },
    Data := [("username", "v-readonly"), ("password", "s3cret")] }

/-- The sample environment in which connection and `CreateUser` succeed. -/
def okEnv (d m : Duration) : Env :=
  sampleEnv d m ["read*"] (.ok 7) (.ok ("v-readonly", "s3cret"))

/-- The result and final state of the run for the role `readonly` in the
environment `env` on the backend `b` (a run of the samples always returns). -/
def sampleRun (env : Env) (b : databaseBackend) : Result × St :=
  (pathCredsCreateRead env sampleReq "readonly" b).getD ((none, none), { b := b, log := [] })

/-- The sample environment in which `CreateUser` fails with an error that the
invalidation step takes for a dead connection. -/
def shutdownEnv : Env :=
  sampleEnv Hour Hour ["read*"] (.ok 7) (.error (.other 9 "connection is shut down"))

/-- The sample environment in which the connection cannot be constructed. -/
def unreachableEnv : Env :=
  sampleEnv Hour Hour ["read*"] (.error (.other 3 "dial tcp: refused")) (.ok ("u", "p"))

/-- The sample environment whose allow-list holds the wildcard and whose plugin
fails `CreateUser` with the permission-denied error value itself. -/
def sentinelEnv : Env :=
  sampleEnv Hour Hour ["*"] (.ok 7) (.error .ErrPermissionDenied)

/-- The sample environment whose allow-list names another family of roles. -/
def deniedEnv : Env :=
  sampleEnv Hour Hour ["admin*", "ops"] (.ok 7) (.ok ("u", "p"))

/-- The state in which the run in `shutdownEnv` on the pooled backend ends. -/
def shutdownState : St :=
  { b := withoutConn pooledBackend "pg",
    log := lookups "readonly" (sampleRole Hour Hour) pooledBackend
      ++ [⟨.RLock, pooledBackend⟩, ⟨.getDBObj "pg", sharedHeld pooledBackend⟩,
        ⟨createUserEvent shutdownEnv sampleReq "readonly" (sampleRole Hour Hour) 7,
          sharedHeld pooledBackend⟩,
        ⟨.RUnlock, sharedHeld pooledBackend⟩]
      ++ closeLog shutdownEnv "pg" (.other 9 "connection is shut down") pooledBackend }

/-- Two calls for the same role by different callers. -/
def raceCalls : List (Request × String) :=
  [(sampleReq, "readonly"), ({ DisplayName := "other" }, "readonly")]

/-- A schedule on which both calls find the pool empty before either takes the
exclusive lock: they alternate up to their `RUnlock`, then the second call runs
to its return, then the first. -/
def raceSchedule : List Nat :=
  [0, 1, 0, 1, 0, 1, 0, 1, 0, 1, 1, 1, 1, 1, 1, 1, 0, 0, 0, 0]

/-- The state the two calls reach on that schedule. -/
def raceFinal : Sys :=
  (Sys.exec (okEnv Hour Hour) raceSchedule (Sys.init idleBackend raceCalls)).getD
    (Sys.init idleBackend [])

/-! ## The handler follows its exit paths -/

theorem closeIfShutdown_eq (env : Env) (name : String) (err : GoError) (s : St)
    (hw : s.b.mu.writer = false) (hr : env.IsConnectionFatal err = true → s.b.mu.readers = 0) :
    closeIfShutdown env name err s
      = some ⟨closeState env name err s.b, s.log ++ closeLog env name err s.b⟩ := by
  obtain ⟨⟨⟨r, w⟩, conns⟩, log⟩ := s
  simp only at hw hr
  subst hw
  cases hf : env.IsConnectionFatal err
  · simp [closeIfShutdown, closeState, closeLog, hf, St.emit]
  · have := hr hf
    subst this
    simp [closeIfShutdown, closeState, closeLog, hf, St.emit, Lock, Unlock, RWMutex.Lock,
      RWMutex.Unlock, clearConnection, exclusiveHeld, withoutConn]

theorem closeIfShutdown_none (env : Env) (name : String) (err : GoError) (s : St)
    (hw : s.b.mu.writer = false) (hf : env.IsConnectionFatal err = true)
    (hr : s.b.mu.readers ≠ 0) :
    closeIfShutdown env name err s = none := by
  obtain ⟨⟨⟨r, w⟩, conns⟩, log⟩ := s
  simp only at hw hr
  subst hw
  simp [closeIfShutdown, hf, St.emit, Lock, RWMutex.Lock, hr]

theorem issueCreds_ok (env : Env) (req : Request) (name : String) (role : roleEntry)
    (db : Handle) (unlockFunc : St → Option St) (s : St) (username password : String)
    (hcu : env.CreateUser db role.Statements ⟨req.DisplayName, name⟩
      (env.Now + leaseTTL env role) = .ok (username, password)) :
    issueCreds env req name role db unlockFunc s
      = (unlockFunc (s.emit (createUserEvent env req name role db))).map
          (fun s1 => ((some (credsResponse env name role username password), none), s1)) := by
  simp only [issueCreds, hcu, createUserEvent, credsResponse]
  cases unlockFunc (s.emit _) <;> rfl

theorem issueCreds_error (env : Env) (req : Request) (name : String) (role : roleEntry)
    (db : Handle) (unlockFunc : St → Option St) (s : St) (err : GoError)
    (hcu : env.CreateUser db role.Statements ⟨req.DisplayName, name⟩
      (env.Now + leaseTTL env role) = .error err) :
    issueCreds env req name role db unlockFunc s
      = (unlockFunc (s.emit (createUserEvent env req name role db))).bind
          (fun s1 => (closeIfShutdown env role.DBName err s1).map
            (fun s2 => ((none, some err), s2))) := by
  simp only [issueCreds, hcu, createUserEvent]
  cases unlockFunc (s.emit _) with
  | none => rfl
  | some s1 =>
    simp only [Option.bind]
    cases closeIfShutdown env role.DBName err s1 <;> rfl

theorem gate_of_allowed (env : Env) (cfg : DatabaseConfig) (name : String)
    (h : allowed env cfg name = true) :
    (!StrListContains cfg.AllowedRoles "*"
      && !StrListContainsGlob env.Glob cfg.AllowedRoles name) = false := by
  simp only [allowed] at h
  revert h
  cases StrListContains cfg.AllowedRoles "*" <;>
    cases StrListContainsGlob env.Glob cfg.AllowedRoles name <;> simp

theorem gate_of_not_allowed (env : Env) (cfg : DatabaseConfig) (name : String)
    (h : allowed env cfg name = false) :
    (!StrListContains cfg.AllowedRoles "*"
      && !StrListContainsGlob env.Glob cfg.AllowedRoles name) = true := by
  simp only [allowed] at h
  revert h
  cases StrListContains cfg.AllowedRoles "*" <;>
    cases StrListContainsGlob env.Glob cfg.AllowedRoles name <;> simp

theorem run_of_Run (env : Env) (req : Request) (name : String) (b : databaseBackend)
    (res : Result) (s : St) (h : Run env req name b res s) :
    pathCredsCreateRead env req name b = some (res, s) := by
  obtain ⟨⟨r, w⟩, conns⟩ := b
  cases h with
  | roleError err hrole => simp [pathCredsCreateRead, hrole, St.emit]
  | unknownRole hrole => simp [pathCredsCreateRead, hrole, St.emit]
  | configError role err hrole hcfg => simp [pathCredsCreateRead, hrole, hcfg, St.emit, lookups]
  | denied role cfg hrole hcfg hgate =>
    simp [pathCredsCreateRead, hrole, hcfg, St.emit, lookups, gate_of_not_allowed _ _ _ hgate]
  | reuseOk role cfg db u p hrole hcfg hgate hw hget hcu =>
    simp only at hw hget
    subst hw
    simp [pathCredsCreateRead, hrole, hcfg, gate_of_allowed _ _ _ hgate, St.emit, lookups, RLock,
      RWMutex.RLock, getDBObj, hget, issueCreds_ok _ _ _ _ _ _ _ _ _ hcu, RUnlock,
      RWMutex.RUnlock, sharedHeld, createUserEvent]
  | reuseFail role cfg db err hrole hcfg hgate hw hget hcu hr =>
    simp only at hw hget hr
    subst hw
    simp [pathCredsCreateRead, hrole, hcfg, gate_of_allowed _ _ _ hgate, St.emit, lookups, RLock,
      RWMutex.RLock, getDBObj, hget, issueCreds_error _ _ _ _ _ _ _ _ hcu, RUnlock,
      RWMutex.RUnlock, sharedHeld, createUserEvent]
    refine (closeIfShutdown_eq _ _ _ _ rfl hr).trans ?_
    simp
  | createError role cfg err hrole hcfg hgate hw hr hget hnew =>
    simp only at hw hget hr
    subst hw hr
    simp [pathCredsCreateRead, hrole, hcfg, gate_of_allowed _ _ _ hgate, St.emit, lookups, RLock,
      RWMutex.RLock, getDBObj, hget, RUnlock, RWMutex.RUnlock, sharedHeld, Lock, RWMutex.Lock,
      createDBObj, hnew, Unlock, RWMutex.Unlock, exclusiveHeld]
  | createOk role cfg db u p hrole hcfg hgate hw hr hget hnew hcu =>
    simp only at hw hget hr
    subst hw hr
    simp [pathCredsCreateRead, hrole, hcfg, gate_of_allowed _ _ _ hgate, St.emit, lookups, RLock,
      RWMutex.RLock, getDBObj, hget, RUnlock, RWMutex.RUnlock, sharedHeld, Lock, RWMutex.Lock,
      createDBObj, hnew, Unlock, RWMutex.Unlock, exclusiveHeld,
      issueCreds_ok _ _ _ _ _ _ _ _ _ hcu, withConn, createUserEvent]
  | createFail role cfg db err hrole hcfg hgate hw hr hget hnew hcu =>
    simp only at hw hget hr
    subst hw hr
    simp [pathCredsCreateRead, hrole, hcfg, gate_of_allowed _ _ _ hgate, St.emit, lookups, RLock,
      RWMutex.RLock, getDBObj, hget, RUnlock, RWMutex.RUnlock, sharedHeld, Lock, RWMutex.Lock,
      createDBObj, hnew, Unlock, RWMutex.Unlock, exclusiveHeld,
      issueCreds_error _ _ _ _ _ _ _ _ hcu, withConn, createUserEvent]
    refine (closeIfShutdown_eq _ _ _ _ rfl (fun _ => rfl)).trans ?_
    simp

theorem Run_of_eq (env : Env) (req : Request) (name : String) (b : databaseBackend)
    (res res1 : Result) (s s1 : St) (R : Run env req name b res1 s1)
    (h : pathCredsCreateRead env req name b = some (res, s)) : Run env req name b res s := by
  rw [run_of_Run env req name b res1 s1 R] at h
  cases h
  exact R

theorem blocked_writer (env : Env) (req : Request) (name : String) (b : databaseBackend)
    (role : roleEntry) (cfg : DatabaseConfig) (hrole : env.Role name = .ok (some role))
    (hcfg : env.DatabaseConfig role.DBName = .ok cfg) (hgate : allowed env cfg name = true)
    (hw : b.mu.writer = true) : pathCredsCreateRead env req name b = none := by
  obtain ⟨⟨r, w⟩, conns⟩ := b
  simp only at hw
  subst hw
  simp [pathCredsCreateRead, hrole, hcfg, gate_of_allowed _ _ _ hgate, St.emit, RLock,
    RWMutex.RLock]

theorem blocked_upgrade (env : Env) (req : Request) (name : String) (b : databaseBackend)
    (role : roleEntry) (cfg : DatabaseConfig) (hrole : env.Role name = .ok (some role))
    (hcfg : env.DatabaseConfig role.DBName = .ok cfg) (hgate : allowed env cfg name = true)
    (hw : b.mu.writer = false) (hget : lookupConn b.connections role.DBName = none)
    (hr : b.mu.readers ≠ 0) : pathCredsCreateRead env req name b = none := by
  obtain ⟨⟨r, w⟩, conns⟩ := b
  simp only at hw hget hr
  subst hw
  simp [pathCredsCreateRead, hrole, hcfg, gate_of_allowed _ _ _ hgate, St.emit, RLock,
    RWMutex.RLock, getDBObj, hget, RUnlock, RWMutex.RUnlock, Lock, RWMutex.Lock, hr]

theorem blocked_invalidation (env : Env) (req : Request) (name : String) (b : databaseBackend)
    (role : roleEntry) (cfg : DatabaseConfig) (db : Handle) (err : GoError)
    (hrole : env.Role name = .ok (some role))
    (hcfg : env.DatabaseConfig role.DBName = .ok cfg) (hgate : allowed env cfg name = true)
    (hw : b.mu.writer = false) (hget : lookupConn b.connections role.DBName = some db)
    (hcu : env.CreateUser db role.Statements ⟨req.DisplayName, name⟩
      (env.Now + leaseTTL env role) = .error err)
    (hf : env.IsConnectionFatal err = true)
    (hr : b.mu.readers ≠ 0) : pathCredsCreateRead env req name b = none := by
  obtain ⟨⟨r, w⟩, conns⟩ := b
  simp only at hw hget hr
  subst hw
  simp [pathCredsCreateRead, hrole, hcfg, gate_of_allowed _ _ _ hgate, St.emit, RLock,
    RWMutex.RLock, getDBObj, hget, issueCreds_error _ _ _ _ _ _ _ _ hcu, RUnlock,
    RWMutex.RUnlock]
  exact closeIfShutdown_none _ _ _ _ rfl hf hr

theorem Run_of_run (env : Env) (req : Request) (name : String) (b : databaseBackend)
    (res : Result) (s : St) (h : pathCredsCreateRead env req name b = some (res, s)) :
    Run env req name b res s := by
  cases hrole : env.Role name with
  | error err => exact Run_of_eq _ _ _ _ _ _ _ _ (.roleError err hrole) h
  | ok orole =>
    cases orole with
    | none => exact Run_of_eq _ _ _ _ _ _ _ _ (.unknownRole hrole) h
    | some role =>
      cases hcfg : env.DatabaseConfig role.DBName with
      | error err => exact Run_of_eq _ _ _ _ _ _ _ _ (.configError role err hrole hcfg) h
      | ok cfg =>
        cases hgate : allowed env cfg name with
        | false => exact Run_of_eq _ _ _ _ _ _ _ _ (.denied role cfg hrole hcfg hgate) h
        | true =>
          cases hw : b.mu.writer with
          | true => rw [blocked_writer env req name b role cfg hrole hcfg hgate hw] at h; cases h
          | false =>
            cases hget : lookupConn b.connections role.DBName with
            | some db =>
              cases hcu : env.CreateUser db role.Statements ⟨req.DisplayName, name⟩
                  (env.Now + leaseTTL env role) with
              | ok up =>
                obtain ⟨u, p⟩ := up
                exact Run_of_eq _ _ _ _ _ _ _ _
                  (.reuseOk role cfg db u p hrole hcfg hgate hw hget hcu) h
              | error err =>
                by_cases hr : env.IsConnectionFatal err = true → b.mu.readers = 0
                · exact Run_of_eq _ _ _ _ _ _ _ _
                    (.reuseFail role cfg db err hrole hcfg hgate hw hget hcu hr) h
                · push_neg at hr
                  rw [blocked_invalidation env req name b role cfg db err hrole hcfg hgate hw
                    hget hcu hr.1 hr.2] at h
                  cases h
            | none =>
              by_cases hr : b.mu.readers = 0
              · cases hnew : env.newConnection role.DBName with
                | error err =>
                  exact Run_of_eq _ _ _ _ _ _ _ _
                    (.createError role cfg err hrole hcfg hgate hw hr hget hnew) h
                | ok db =>
                  cases hcu : env.CreateUser db role.Statements ⟨req.DisplayName, name⟩
                      (env.Now + leaseTTL env role) with
                  | ok up =>
                    obtain ⟨u, p⟩ := up
                    exact Run_of_eq _ _ _ _ _ _ _ _
                      (.createOk role cfg db u p hrole hcfg hgate hw hr hget hnew hcu) h
                  | error err =>
                    exact Run_of_eq _ _ _ _ _ _ _ _
                      (.createFail role cfg db err hrole hcfg hgate hw hr hget hnew hcu) h
              · rw [blocked_upgrade env req name b role cfg hrole hcfg hgate hw hget hr] at h
                cases h

theorem run_iff_Run (env : Env) (req : Request) (name : String) (b : databaseBackend)
    (res : Result) (s : St) :
    pathCredsCreateRead env req name b = some (res, s) ↔ Run env req name b res s :=
  ⟨Run_of_run env req name b res s, run_of_Run env req name b res s⟩

/-! ## The lease TTL -/

theorem leaseTTL_eq_spec (e : Env) (r : roleEntry) :
    leaseTTL e r
      = specEffectiveTTL r.DefaultTTL r.MaxTTL e.DefaultLeaseTTL e.MaxLeaseTTL := by
  simp only [leaseTTL, specEffectiveTTL, bne_iff_ne, ne_eq, Bool.and_eq_true, decide_eq_true_eq]

theorem Run_exists_of_free (env : Env) (req : Request) (name : String) (b : databaseBackend)
    (hfree : b.mu = ⟨0, false⟩) : ∃ res s, Run env req name b res s := by
  have hw : b.mu.writer = false := by rw [hfree]
  have hr : b.mu.readers = 0 := by rw [hfree]
  cases hrole : env.Role name with
  | error err => exact ⟨_, _, .roleError err hrole⟩
  | ok orole =>
    cases orole with
    | none => exact ⟨_, _, .unknownRole hrole⟩
    | some role =>
      cases hcfg : env.DatabaseConfig role.DBName with
      | error err => exact ⟨_, _, .configError role err hrole hcfg⟩
      | ok cfg =>
        cases hgate : allowed env cfg name with
        | false => exact ⟨_, _, .denied role cfg hrole hcfg hgate⟩
        | true =>
          cases hget : lookupConn b.connections role.DBName with
          | some db =>
            cases hcu : env.CreateUser db role.Statements ⟨req.DisplayName, name⟩
                (env.Now + leaseTTL env role) with
            | ok up => exact ⟨_, _, .reuseOk role cfg db up.1 up.2 hrole hcfg hgate hw hget hcu⟩
            | error err =>
              exact ⟨_, _, .reuseFail role cfg db err hrole hcfg hgate hw hget hcu (fun _ => hr)⟩
          | none =>
            cases hnew : env.newConnection role.DBName with
            | error err => exact ⟨_, _, .createError role cfg err hrole hcfg hgate hw hr hget hnew⟩
            | ok db =>
              cases hcu : env.CreateUser db role.Statements ⟨req.DisplayName, name⟩
                  (env.Now + leaseTTL env role) with
              | ok up =>
                exact ⟨_, _, .createOk role cfg db up.1 up.2 hrole hcfg hgate hw hr hget hnew hcu⟩
              | error err =>
                exact ⟨_, _, .createFail role cfg db err hrole hcfg hgate hw hr hget hnew hcu⟩

theorem returns_of_free (env : Env) (req : Request) (name : String) (b : databaseBackend)
    (hfree : b.mu = ⟨0, false⟩) : (pathCredsCreateRead env req name b).isSome = true := by
  obtain ⟨res, s, R⟩ := Run_exists_of_free env req name b hfree
  rw [run_of_Run env req name b res s R]
  rfl

theorem success_facts (env : Env) (req : Request) (name : String) (b : databaseBackend)
    (role : roleEntry) (resp : Response) (s : St)
    (hrole : env.Role name = .ok (some role))
    (hrun : pathCredsCreateRead env req name b = some ((some resp, none), s)) :
    resp.Secret.map Secret.TTL = some (leaseTTL env role)
      ∧ s.log.filterMap (fun x => x.ev.expiration) = [env.Now + leaseTTL env role] := by
  have R := Run_of_run env req name b _ s hrun
  cases R with
  | unknownRole h => rw [hrole] at h; cases h
  | reuseOk role1 cfg db u p h1 hcfg hgate hw hget hcu =>
    rw [hrole] at h1; cases h1
    exact ⟨rfl, rfl⟩
  | createOk role1 cfg db u p h1 hcfg hgate hw hr hget hnew hcu =>
    rw [hrole] at h1; cases h1
    exact ⟨rfl, rfl⟩

/-- C1: the lease TTL computed by `pathCredsCreateRead` equals the TTL rule of
the specification for every role default `d`, role maximum `m`, system default
`D` and system maximum `M`; the rule gives 2h for d=3h, m=2h, M=24h, gives 24h
for d=48h, m=0, M=24h and gives 1h for d=0, m=0, D=1h, M=24h; and every
successful call hands `CreateUser` the expiration `time.Now()` plus that value,
exactly once, and sets that value as the TTL of the returned secret. -/
theorem effective_ttl_refines_spec :
    (∀ (e : Env) (r : roleEntry),
      leaseTTL e r = specEffectiveTTL r.DefaultTTL r.MaxTTL e.DefaultLeaseTTL e.MaxLeaseTTL)
    ∧ (∀ D : Duration, specEffectiveTTL (3 * Hour) (2 * Hour) D (24 * Hour) = 2 * Hour)
    ∧ (∀ D : Duration, specEffectiveTTL (48 * Hour) 0 D (24 * Hour) = 24 * Hour)
    ∧ specEffectiveTTL 0 0 Hour (24 * Hour) = Hour
    ∧ (∀ (env : Env) (req : Request) (name : String) (b : databaseBackend) (role : roleEntry)
        (resp : Response) (s : St),
        env.Role name = .ok (some role) →
        pathCredsCreateRead env req name b = some ((some resp, none), s) →
        resp.Secret.map Secret.TTL
            = some (specEffectiveTTL role.DefaultTTL role.MaxTTL env.DefaultLeaseTTL
                env.MaxLeaseTTL)
          ∧ s.log.filterMap (fun x => x.ev.expiration)
            = [env.Now + specEffectiveTTL role.DefaultTTL role.MaxTTL env.DefaultLeaseTTL
                env.MaxLeaseTTL]) := by
  refine ⟨leaseTTL_eq_spec, ?_, ?_, ?_, ?_⟩
  · intro D; simp [specEffectiveTTL, Hour]
  · intro D; simp [specEffectiveTTL, Hour]
  · simp [specEffectiveTTL, Hour]
  · intro env req name b role resp s hrole hrun
    rw [← leaseTTL_eq_spec]
    exact success_facts env req name b role resp s hrole hrun

/-- A role with default 3h and max 2h under a system max of 24h: the lease TTL is 2h,
and the successful run on the pooled backend returns it as the TTL of the secret. -/
theorem effective_ttl_refines_spec_witness :
    leaseTTL (okEnv (3 * Hour) (2 * Hour)) (sampleRole (3 * Hour) (2 * Hour)) = 2 * Hour
      ∧ (sampleCreds (2 * Hour)).Secret.map Secret.TTL
        = some (specEffectiveTTL (3 * Hour) (2 * Hour) Hour (24 * Hour)) :=
  ⟨(effective_ttl_refines_spec.1 _ _).trans (effective_ttl_refines_spec.2.1 Hour),
    (effective_ttl_refines_spec.2.2.2.2 (okEnv (3 * Hour) (2 * Hour)) sampleReq "readonly"
      pooledBackend (sampleRole (3 * Hour) (2 * Hour)) (sampleCreds (2 * Hour)) _ rfl rfl).1⟩

theorem clamp_le (d m D M : Int) :
    (if (if d ≠ 0 then d else D) > (if m ≠ 0 ∧ m < M then m else M)
      then (if m ≠ 0 ∧ m < M then m else M) else (if d ≠ 0 then d else D))
        ≤ (if m ≠ 0 ∧ m < M then m else M)
      ∧ (if m ≠ 0 ∧ m < M then m else M) ≤ M := by
  constructor
  · split_ifs <;> omega
  · split_ifs <;> omega

theorem specEffectiveTTL_le (d m D M : Duration) :
    specEffectiveTTL d m D M ≤ specMaxTTL m M ∧ specMaxTTL m M ≤ M :=
  clamp_le d m D M

/-- C2: on every successful call of `pathCredsCreateRead` the TTL of the
returned lease is at most the resolved max-TTL (the role's max-TTL when it is
non-zero and below the system max-TTL, otherwise the system max-TTL), which is
itself at most the system max-TTL, so the lease TTL never exceeds the system
max-TTL, whatever the role's default-TTL is. -/
theorem lease_ttl_le_max (env : Env) (req : Request) (name : String) (b : databaseBackend)
    (role : roleEntry) (resp : Response) (s : St)
    (hrole : env.Role name = .ok (some role))
    (hrun : pathCredsCreateRead env req name b = some ((some resp, none), s)) :
    ∃ sec, resp.Secret = some sec
      ∧ sec.TTL ≤ specMaxTTL role.MaxTTL env.MaxLeaseTTL
      ∧ specMaxTTL role.MaxTTL env.MaxLeaseTTL ≤ env.MaxLeaseTTL
      ∧ sec.TTL ≤ env.MaxLeaseTTL := by
  have h := (success_facts env req name b role resp s hrole hrun).1
  rw [leaseTTL_eq_spec] at h
  have hle := specEffectiveTTL_le role.DefaultTTL role.MaxTTL env.DefaultLeaseTTL env.MaxLeaseTTL
  cases hsec : resp.Secret with
  | none => rw [hsec] at h; cases h
  | some sec =>
    rw [hsec] at h
    simp only [Option.map_some', Option.some.injEq] at h
    exact ⟨sec, rfl, h ▸ hle.1, hle.2, h ▸ hle.1.trans hle.2⟩

/-- A role with default 48h and no max under a system max of 24h: the secret of the
successful run on the empty pool has a TTL of at most 24h. -/
theorem lease_ttl_le_max_witness :
    ∃ sec, (sampleCreds (24 * Hour)).Secret = some sec
      ∧ sec.TTL ≤ specMaxTTL 0 (24 * Hour)
      ∧ specMaxTTL 0 (24 * Hour) ≤ 24 * Hour
      ∧ sec.TTL ≤ 24 * Hour :=
  lease_ttl_le_max (okEnv (48 * Hour) 0) sampleReq "readonly" idleBackend
    (sampleRole (48 * Hour) 0) (sampleCreds (24 * Hour)) _ rfl rfl

/-! ## Error paths and the lock -/

/-- C4: for a role name that is not in storage (the lookup returns no role and
no error) `pathCredsCreateRead` returns the user-facing "unknown role" error
response with a nil Go error, having made no call but the role lookup: no
config lookup, no lock operation, no `getDBObj`, `createDBObj` or `CreateUser`;
the backend is left as it was. -/
theorem unknown_role_not_found (env : Env) (req : Request) (name : String)
    (b : databaseBackend) (hrole : env.Role name = .ok none) :
    pathCredsCreateRead env req name b
      = some ((some (ErrorResponse ("unknown role: " ++ name)), none),
          { b := b, log := [⟨.Role name, b⟩] }) :=
  run_of_Run env req name b _ _ (.unknownRole hrole)

/-- The role `nobody` is not in the storage of the sample environment. -/
theorem unknown_role_not_found_witness :
    pathCredsCreateRead (okEnv Hour Hour) sampleReq "nobody" idleBackend
      = some ((some (ErrorResponse ("unknown role: " ++ "nobody")), none),
          { b := idleBackend, log := [⟨.Role "nobody", idleBackend⟩] }) :=
  unknown_role_not_found (okEnv Hour Hour) sampleReq "nobody" idleBackend rfl

theorem Run_mutex (env : Env) (req : Request) (name : String) (b : databaseBackend)
    (res : Result) (s : St) (R : Run env req name b res s) :
    s.b.mu = b.mu
      ∧ countEv .RLock s.log = countEv .RUnlock s.log
      ∧ countEv .Lock s.log = countEv .Unlock s.log
      ∧ (∀ x ∈ s.log, x.ev.isCloseIfShutdown = true → x.pre.mu = b.mu) := by
  cases R with
  | reuseFail role cfg db err hrole hcfg hgate hw hget hcu hr =>
    cases hf : env.IsConnectionFatal err <;>
      simp [countEv, lookups, closeLog, closeState, createUserEvent, Event.isCloseIfShutdown,
        withoutConn, sharedHeld, exclusiveHeld, hf]
  | createFail role cfg db err hrole hcfg hgate hw hr hget hnew hcu =>
    cases hf : env.IsConnectionFatal err <;>
      simp [countEv, lookups, closeLog, closeState, createUserEvent, Event.isCloseIfShutdown,
        withConn, withoutConn, sharedHeld, exclusiveHeld, hf]
  | _ =>
    simp [countEv, lookups, createUserEvent, Event.isCloseIfShutdown, withConn, sharedHeld,
      exclusiveHeld]

/-- C5: with the pool lock as explicit state (number of shared holders,
exclusive flag), every run of `pathCredsCreateRead` that returns, on whichever
exit path, returns with the lock state it was entered with; it performs as many
`RUnlock` as `RLock` calls and as many `Unlock` as `Lock` calls; and on the
`CreateUser` failure path the lock is already back in its entry state when the
invalidation step is called, hence before the error is returned.  Entered with
a free lock, the run does return. -/
theorem lock_state_restored (env : Env) (req : Request) (name : String)
    (b : databaseBackend) :
    (b.mu = ⟨0, false⟩ → (pathCredsCreateRead env req name b).isSome = true)
      ∧ ∀ (res : Result) (s : St), pathCredsCreateRead env req name b = some (res, s) →
          s.b.mu = b.mu
            ∧ countEv .RLock s.log = countEv .RUnlock s.log
            ∧ countEv .Lock s.log = countEv .Unlock s.log
            ∧ (∀ x ∈ s.log, x.ev.isCloseIfShutdown = true → x.pre.mu = b.mu) :=
  ⟨returns_of_free env req name b,
    fun res s h => Run_mutex env req name b res s (Run_of_run env req name b res s h)⟩

/-- The run on the empty pool whose `CreateUser` fails with a connection-fatal error
returns that error with the lock free again, after two `Lock` and two `Unlock` calls. -/
theorem lock_state_restored_witness :
    (pathCredsCreateRead shutdownEnv sampleReq "readonly" idleBackend).isSome = true
      ∧ ((sampleRun shutdownEnv idleBackend).2.b.mu = idleBackend.mu
        ∧ countEv .RLock (sampleRun shutdownEnv idleBackend).2.log
          = countEv .RUnlock (sampleRun shutdownEnv idleBackend).2.log
        ∧ countEv .Lock (sampleRun shutdownEnv idleBackend).2.log
          = countEv .Unlock (sampleRun shutdownEnv idleBackend).2.log
        ∧ (∀ x ∈ (sampleRun shutdownEnv idleBackend).2.log,
            x.ev.isCloseIfShutdown = true → x.pre.mu = idleBackend.mu))
      ∧ countEv .Lock (sampleRun shutdownEnv idleBackend).2.log = 2 :=
  ⟨(lock_state_restored shutdownEnv sampleReq "readonly" idleBackend).1 rfl,
    (lock_state_restored shutdownEnv sampleReq "readonly" idleBackend).2
      (sampleRun shutdownEnv idleBackend).1 (sampleRun shutdownEnv idleBackend).2 rfl,
    by decide⟩

theorem createDBObj_error (env : Env) (name : String) (s : St) (e : GoError)
    (h : (createDBObj env name s).1 = .error e) :
    lookupConn s.b.connections name = none ∧ env.newConnection name = .error e := by
  simp only [createDBObj, St.emit] at h
  cases hget : lookupConn s.b.connections name with
  | some db => rw [hget] at h; cases h
  | none =>
    rw [hget] at h
    cases hnew : env.newConnection name with
    | ok db => rw [hnew] at h; cases h
    | error err =>
      rw [hnew] at h
      simp only [Except.error.injEq] at h
      exact ⟨rfl, by rw [h]⟩

/-- C7: when `createDBObj`, called with the exclusive lock held, fails with
cause `e` for the target name `n` of the role, every run of
`pathCredsCreateRead` that returns gives no response and an error whose message
is "cound not retrieve db with name: n, got error: " followed by the message of
`e`; the last call of the run is the `Unlock` of the exclusive lock, the backend
is left as it was, and `CreateUser` is never called.  Entered with a free lock,
the run does return. -/
theorem create_failure_is_wrapped (env : Env) (req : Request) (name : String)
    (b : databaseBackend) (role : roleEntry) (cfg : DatabaseConfig) (e : GoError)
    (hrole : env.Role name = .ok (some role))
    (hcfg : env.DatabaseConfig role.DBName = .ok cfg)
    (hgate : allowed env cfg name = true)
    (hfail : (createDBObj env role.DBName { b := exclusiveHeld b, log := [] }).1 = .error e) :
    (b.mu = ⟨0, false⟩ → (pathCredsCreateRead env req name b).isSome = true)
      ∧ ∀ (res : Result) (s : St), pathCredsCreateRead env req name b = some (res, s) →
          res.1 = none
            ∧ (∃ err, res.2 = some err ∧ err.Error
                = "cound not retrieve db with name: " ++ role.DBName ++ ", got error: "
                  ++ e.Error)
            ∧ s.log.getLast? = some ⟨.Unlock, exclusiveHeld b⟩
            ∧ s.b = b
            ∧ (∀ x ∈ s.log, x.ev.expiration = none) := by
  obtain ⟨hget, hnew⟩ := createDBObj_error env role.DBName _ e hfail
  refine ⟨returns_of_free env req name b, ?_⟩
  intro res s h
  have R := Run_of_run env req name b res s h
  cases R with
  | roleError err h1 => rw [hrole] at h1; cases h1
  | unknownRole h1 => rw [hrole] at h1; cases h1
  | configError role1 err h1 h2 => rw [hrole] at h1; cases h1; rw [hcfg] at h2; cases h2
  | denied role1 cfg1 h1 h2 h3 =>
    rw [hrole] at h1; cases h1; rw [hcfg] at h2; cases h2; rw [hgate] at h3; cases h3
  | reuseOk role1 cfg1 db u p h1 h2 h3 hw hg hcu =>
    rw [hrole] at h1; cases h1
    simp only [exclusiveHeld] at hget
    rw [hget] at hg; cases hg
  | reuseFail role1 cfg1 db err h1 h2 h3 hw hg hcu hr =>
    rw [hrole] at h1; cases h1
    simp only [exclusiveHeld] at hget
    rw [hget] at hg; cases hg
  | createError role1 cfg1 err h1 h2 h3 hw hr hg hn =>
    rw [hrole] at h1; cases h1
    rw [hnew] at hn; cases hn
    refine ⟨rfl, ⟨_, rfl, rfl⟩, by simp [lookups], rfl, ?_⟩
    simp [lookups, Event.expiration]
  | createOk role1 cfg1 db u p h1 h2 h3 hw hr hg hn hcu =>
    rw [hrole] at h1; cases h1
    rw [hnew] at hn; cases hn
  | createFail role1 cfg1 db err h1 h2 h3 hw hr hg hn hcu =>
    rw [hrole] at h1; cases h1
    rw [hnew] at hn; cases hn

/-- The run on the empty pool in the environment whose target cannot be reached. -/
theorem create_failure_is_wrapped_witness :
    (sampleRun unreachableEnv idleBackend).1.1 = none
      ∧ (∃ err, (sampleRun unreachableEnv idleBackend).1.2 = some err ∧ err.Error
          = "cound not retrieve db with name: " ++ "pg" ++ ", got error: "
            ++ "dial tcp: refused")
      ∧ (sampleRun unreachableEnv idleBackend).2.log.getLast?
        = some ⟨.Unlock, exclusiveHeld idleBackend⟩
      ∧ (sampleRun unreachableEnv idleBackend).2.b = idleBackend
      ∧ (∀ x ∈ (sampleRun unreachableEnv idleBackend).2.log, x.ev.expiration = none) :=
  (create_failure_is_wrapped unreachableEnv sampleReq "readonly" idleBackend
    (sampleRole Hour Hour) { AllowedRoles := ["read*"] } (.other 3 "dial tcp: refused")
    rfl rfl (by decide) rfl).2
    (sampleRun unreachableEnv idleBackend).1 (sampleRun unreachableEnv idleBackend).2 rfl

theorem closeLog_eq (env : Env) (name : String) (err : GoError) (b : databaseBackend) :
    ∃ l2, closeLog env name err b = ⟨.closeIfShutdown name err, b⟩ :: l2
      ∧ ∀ y ∈ l2, y.ev.isCloseIfShutdown = false ∧ y.ev.expiration = none := by
  unfold closeLog
  cases env.IsConnectionFatal err <;> simp [Event.isCloseIfShutdown, Event.expiration]

/-- C8: when a run of `pathCredsCreateRead` for an existing role calls
`CreateUser` and that call fails with error `e`, the run returns no response
and exactly `e`; the log reads: the `CreateUser` call, then the unlock of the
lock the request holds (`RUnlock` or `Unlock`), then the invalidation step
`closeIfShutdown` with the role's target name and `e`, called in a state whose
lock equals the lock at entry, and no other call of the run is an invalidation
step.  The returned error is `e` whatever the invalidation step does.  Entered
with a free lock, the run does return. -/
theorem create_user_error_is_returned (env : Env) (req : Request) (name : String)
    (b : databaseBackend) (role : roleEntry) (e : GoError)
    (hrole : env.Role name = .ok (some role)) :
    (b.mu = ⟨0, false⟩ → (pathCredsCreateRead env req name b).isSome = true)
      ∧ ∀ (res : Result) (s : St), pathCredsCreateRead env req name b = some (res, s) →
          ∀ x ∈ s.log, ∀ (db : Handle) (st : Statements) (uc : UsernameConfig) (ex : Time),
            x.ev = .CreateUser db st uc ex → env.CreateUser db st uc ex = .error e →
            res = (none, some e)
              ∧ ∃ l1 unl pre l2,
                  s.log = l1 ++ x :: unl :: ⟨.closeIfShutdown role.DBName e, pre⟩ :: l2
                    ∧ (unl.ev = .RUnlock ∨ unl.ev = .Unlock)
                    ∧ pre.mu = b.mu
                    ∧ (∀ y ∈ l1 ++ l2, y.ev.isCloseIfShutdown = false) := by
  refine ⟨returns_of_free env req name b, ?_⟩
  intro res s h x hx db st uc ex hev hfail
  have R := Run_of_run env req name b res s h
  cases R with
  | roleError err h1 => rw [hrole] at h1; cases h1
  | unknownRole h1 => rw [hrole] at h1; cases h1
  | configError role1 err h1 h2 =>
    simp [lookups] at hx
    rcases hx with rfl | rfl <;> cases hev
  | denied role1 cfg1 h1 h2 h3 =>
    simp [lookups] at hx
    rcases hx with rfl | rfl <;> cases hev
  | createError role1 cfg1 err h1 h2 h3 hw hr hg hn =>
    simp [lookups] at hx
    rcases hx with rfl | rfl | rfl | rfl | rfl | rfl | rfl | rfl | rfl <;> cases hev
  | reuseOk role1 cfg1 db1 u p h1 h2 h3 hw hg hcu =>
    simp [lookups, createUserEvent] at hx
    rcases hx with rfl | rfl | rfl | rfl | rfl | rfl <;> cases hev
    rw [hcu] at hfail; cases hfail
  | createOk role1 cfg1 db1 u p h1 h2 h3 hw hr hg hn hcu =>
    simp [lookups, createUserEvent] at hx
    rcases hx with rfl | rfl | rfl | rfl | rfl | rfl | rfl | rfl | rfl | rfl <;> cases hev
    rw [hcu] at hfail; cases hfail
  | reuseFail role1 cfg1 db1 err h1 h2 h3 hw hg hcu hr =>
    rw [hrole] at h1; cases h1
    obtain ⟨l2, hl2, hno⟩ := closeLog_eq env role.DBName err b
    rw [hl2] at hx ⊢
    have hx1 : x = ⟨createUserEvent env req name role db1, sharedHeld b⟩ := by
      rw [List.mem_append, List.mem_cons] at hx
      rcases hx with hx | rfl | hx
      · simp only [lookups, createUserEvent, List.cons_append, List.nil_append, List.mem_cons,
          List.not_mem_nil, or_false] at hx
        rcases hx with rfl | rfl | rfl | rfl | rfl | rfl <;> first | rfl | cases hev
      · cases hev
      · have := (hno x hx).2
        rw [hev] at this; cases this
    subst hx1
    cases hev
    rw [hcu] at hfail; cases hfail
    refine ⟨rfl, lookups name role b ++ [⟨.RLock, b⟩, ⟨.getDBObj role.DBName, sharedHeld b⟩],
      ⟨.RUnlock, sharedHeld b⟩, b, l2, ?_, Or.inl rfl, rfl, ?_⟩
    · simp [lookups, createUserEvent]
    · intro y hy
      rw [List.mem_append] at hy
      rcases hy with hy | hy
      · simp only [lookups, List.cons_append, List.nil_append, List.mem_cons,
          List.not_mem_nil, or_false] at hy
        rcases hy with rfl | rfl | rfl | rfl <;> rfl
      · exact (hno y hy).1
  | createFail role1 cfg1 db1 err h1 h2 h3 hw hr hg hn hcu =>
    rw [hrole] at h1; cases h1
    obtain ⟨l2, hl2, hno⟩ := closeLog_eq env role.DBName err (withConn b role.DBName db1)
    rw [hl2] at hx ⊢
    have hx1 : x = ⟨createUserEvent env req name role db1,
        exclusiveHeld (withConn b role.DBName db1)⟩ := by
      rw [List.mem_append, List.mem_cons] at hx
      rcases hx with hx | rfl | hx
      · simp only [lookups, createUserEvent, List.cons_append, List.nil_append, List.mem_cons,
          List.not_mem_nil, or_false] at hx
        rcases hx with rfl | rfl | rfl | rfl | rfl | rfl | rfl | rfl | rfl | rfl <;>
          first | rfl | cases hev
      · cases hev
      · have := (hno x hx).2
        rw [hev] at this; cases this
    subst hx1
    cases hev
    rw [hcu] at hfail; cases hfail
    refine ⟨rfl, lookups name role b ++ [⟨.RLock, b⟩, ⟨.getDBObj role.DBName, sharedHeld b⟩,
        ⟨.RUnlock, sharedHeld b⟩, ⟨.Lock, b⟩, ⟨.createDBObj role.DBName, exclusiveHeld b⟩,
        ⟨.newConnection role.DBName, exclusiveHeld b⟩],
      ⟨.Unlock, exclusiveHeld (withConn b role.DBName db)⟩, withConn b role.DBName db, l2,
      ?_, Or.inr rfl, rfl, ?_⟩
    · simp [lookups, createUserEvent]
    · intro y hy
      rw [List.mem_append] at hy
      rcases hy with hy | hy
      · simp only [lookups, List.cons_append, List.nil_append, List.mem_cons,
          List.not_mem_nil, or_false] at hy
        rcases hy with rfl | rfl | rfl | rfl | rfl | rfl | rfl | rfl <;> rfl
      · exact (hno y hy).1

/-- The run on the pooled backend whose `CreateUser` fails with a connection-fatal
error: `CreateUser`, then the unlock, then the one invalidation step. -/
theorem create_user_error_is_returned_witness :
    ∃ l1 unl pre l2,
      shutdownState.log
          = l1 ++ ⟨createUserEvent shutdownEnv sampleReq "readonly" (sampleRole Hour Hour) 7,
              sharedHeld pooledBackend⟩
            :: unl :: ⟨.closeIfShutdown "pg" (.other 9 "connection is shut down"), pre⟩ :: l2
        ∧ (unl.ev = .RUnlock ∨ unl.ev = .Unlock)
        ∧ pre.mu = pooledBackend.mu
        ∧ (∀ y ∈ l1 ++ l2, y.ev.isCloseIfShutdown = false) :=
  ((create_user_error_is_returned shutdownEnv sampleReq "readonly" pooledBackend
    (sampleRole Hour Hour) (.other 9 "connection is shut down") rfl).2
    (none, some (.other 9 "connection is shut down")) shutdownState (by decide)
    ⟨createUserEvent shutdownEnv sampleReq "readonly" (sampleRole Hour Hour) 7,
      sharedHeld pooledBackend⟩ (by decide) 7 _ _ _ rfl rfl).2

/-! ## The permission gate -/

theorem StrListContains_iff (haystack : List String) (needle : String) :
    StrListContains haystack needle = true ↔ needle ∈ haystack := by
  induction haystack with
  | nil => simp [StrListContains]
  | cons item rest ih =>
    simp only [StrListContains, List.mem_cons]
    by_cases h : item = needle
    · simp [h]
    · simp only [h, if_false, ih]
      constructor
      · exact Or.inr
      · rintro (h1 | h1)
        · exact absurd h1.symm h
        · exact h1

theorem StrListContainsGlob_iff (glob : String → String → Bool) (haystack : List String)
    (needle : String) :
    StrListContainsGlob glob haystack needle = true ↔ ∃ p ∈ haystack, glob p needle = true := by
  induction haystack with
  | nil => simp [StrListContainsGlob]
  | cons item rest ih =>
    simp only [StrListContainsGlob, List.mem_cons, exists_eq_or_imp]
    by_cases h : glob item needle = true
    · simp [h]
    · simp [h, ih]

theorem allowed_false_iff (env : Env) (cfg : DatabaseConfig) (name : String) :
    allowed env cfg name = false ↔ excluded env cfg name := by
  unfold allowed excluded
  rw [Bool.or_eq_false_iff, ← StrListContains_iff, ← StrListContainsGlob_iff]
  simp

theorem closeLog_no_CreateUser (env : Env) (name : String) (err : GoError)
    (b : databaseBackend) : ∀ y ∈ closeLog env name err b, y.ev.expiration = none := by
  unfold closeLog
  cases env.IsConnectionFatal err <;> simp [Event.expiration]

/-- The claim C3 as stated fails: with the allow-list `["*"]` and a plugin whose
`CreateUser` fails with `logical.ErrPermissionDenied`, the handler returns no response
and that error although the allow-list does not exclude the role. -/
theorem permission_denied_iff_counterexample :
    (pathCredsCreateRead sentinelEnv sampleReq "readonly" pooledBackend).map (fun r => r.1)
        = some (none, some .ErrPermissionDenied)
      ∧ sentinelEnv.Role "readonly" = .ok (some (sampleRole Hour Hour))
      ∧ sentinelEnv.DatabaseConfig "pg" = .ok { AllowedRoles := ["*"] }
      ∧ ¬ excluded sentinelEnv { AllowedRoles := ["*"] } "readonly" := by
  refine ⟨by decide, rfl, rfl, ?_⟩
  simp [excluded]

/-- C3 as amended: for every existing role whose target config loads, (1) when
the allow-list neither contains the literal `*` nor a glob pattern matching
the role name, `pathCredsCreateRead` returns no response and
`logical.ErrPermissionDenied`, having made no call but the two lookups - no
lock operation and no `getDBObj`, `createDBObj` or `CreateUser` - and leaving
the backend as it was; (2) a run that returns gives no response and
`logical.ErrPermissionDenied` exactly when the allow-list excludes the role in
that sense or the run called `CreateUser` and that call itself failed with
`logical.ErrPermissionDenied`, which is handed back unchanged; (3) when the
allow-list does not exclude the role, a run that returns has taken the shared
lock. -/
theorem permission_gate (env : Env) (req : Request) (name : String) (b : databaseBackend)
    (role : roleEntry) (cfg : DatabaseConfig)
    (hrole : env.Role name = .ok (some role))
    (hcfg : env.DatabaseConfig role.DBName = .ok cfg) :
    (excluded env cfg name →
        pathCredsCreateRead env req name b
          = some ((none, some .ErrPermissionDenied), { b := b, log := lookups name role b }))
      ∧ (∀ (res : Result) (s : St), pathCredsCreateRead env req name b = some (res, s) →
          (res = (none, some .ErrPermissionDenied) ↔
            excluded env cfg name
              ∨ ∃ x ∈ s.log, ∃ (db : Handle) (st : Statements) (uc : UsernameConfig) (ex : Time),
                  x.ev = .CreateUser db st uc ex
                    ∧ env.CreateUser db st uc ex = .error .ErrPermissionDenied))
      ∧ (¬ excluded env cfg name →
          ∀ (res : Result) (s : St), pathCredsCreateRead env req name b = some (res, s) →
            ⟨.RLock, b⟩ ∈ s.log) := by
  refine ⟨?_, ?_, ?_⟩
  · intro hex
    exact run_of_Run env req name b _ _
      (.denied role cfg hrole hcfg ((allowed_false_iff env cfg name).2 hex))
  · intro res s h
    have R := Run_of_run env req name b res s h
    cases R with
    | roleError err h1 => rw [hrole] at h1; cases h1
    | unknownRole h1 => rw [hrole] at h1; cases h1
    | configError role1 err h1 h2 => rw [hrole] at h1; cases h1; rw [hcfg] at h2; cases h2
    | denied role1 cfg1 h1 h2 h3 =>
      rw [hrole] at h1; cases h1; rw [hcfg] at h2; cases h2
      exact ⟨fun _ => Or.inl ((allowed_false_iff env cfg name).1 h3), fun _ => rfl⟩
    | reuseOk role1 cfg1 db u p h1 h2 h3 hw hg hcu =>
      rw [hrole] at h1; cases h1; rw [hcfg] at h2; cases h2
      constructor
      · intro hres; cases hres
      · rintro (hex | ⟨x, hx, db1, st, uc, ex, hev, hfail⟩)
        · rw [(allowed_false_iff env cfg name).2 hex] at h3; cases h3
        · simp only [lookups, createUserEvent, List.cons_append, List.nil_append,
            List.mem_cons, List.not_mem_nil, or_false] at hx
          rcases hx with rfl | rfl | rfl | rfl | rfl | rfl <;> cases hev
          rw [hcu] at hfail; cases hfail
    | reuseFail role1 cfg1 db err h1 h2 h3 hw hg hcu hr =>
      rw [hrole] at h1; cases h1; rw [hcfg] at h2; cases h2
      constructor
      · intro hres
        cases hres
        exact Or.inr ⟨⟨createUserEvent env req name role db, sharedHeld b⟩,
          by simp [lookups], db, _, _, _, rfl, hcu⟩
      · rintro (hex | ⟨x, hx, db1, st, uc, ex, hev, hfail⟩)
        · rw [(allowed_false_iff env cfg name).2 hex] at h3; cases h3
        · rw [List.mem_append] at hx
          rcases hx with hx | hx
          · simp only [lookups, createUserEvent, List.cons_append, List.nil_append,
              List.mem_cons, List.not_mem_nil, or_false] at hx
            rcases hx with rfl | rfl | rfl | rfl | rfl | rfl <;> cases hev
            rw [hcu] at hfail; cases hfail
            rfl
          · have := closeLog_no_CreateUser env role.DBName err b x hx
            rw [hev] at this; cases this
    | createError role1 cfg1 err h1 h2 h3 hw hr hg hn =>
      rw [hrole] at h1; cases h1; rw [hcfg] at h2; cases h2
      constructor
      · intro hres; cases hres
      · rintro (hex | ⟨x, hx, db1, st, uc, ex, hev, hfail⟩)
        · rw [(allowed_false_iff env cfg name).2 hex] at h3; cases h3
        · simp only [lookups, List.cons_append, List.nil_append,
            List.mem_cons, List.not_mem_nil, or_false] at hx
          rcases hx with rfl | rfl | rfl | rfl | rfl | rfl | rfl | rfl | rfl <;> cases hev
    | createOk role1 cfg1 db u p h1 h2 h3 hw hr hg hn hcu =>
      rw [hrole] at h1; cases h1; rw [hcfg] at h2; cases h2
      constructor
      · intro hres; cases hres
      · rintro (hex | ⟨x, hx, db1, st, uc, ex, hev, hfail⟩)
        · rw [(allowed_false_iff env cfg name).2 hex] at h3; cases h3
        · simp only [lookups, createUserEvent, List.cons_append, List.nil_append,
            List.mem_cons, List.not_mem_nil, or_false] at hx
          rcases hx with rfl | rfl | rfl | rfl | rfl | rfl | rfl | rfl | rfl | rfl <;> cases hev
          rw [hcu] at hfail; cases hfail
    | createFail role1 cfg1 db err h1 h2 h3 hw hr hg hn hcu =>
      rw [hrole] at h1; cases h1; rw [hcfg] at h2; cases h2
      constructor
      · intro hres
        cases hres
        exact Or.inr ⟨⟨createUserEvent env req name role db,
          exclusiveHeld (withConn b role.DBName db)⟩, by simp [lookups], db, _, _, _, rfl, hcu⟩
      · rintro (hex | ⟨x, hx, db1, st, uc, ex, hev, hfail⟩)
        · rw [(allowed_false_iff env cfg name).2 hex] at h3; cases h3
        · rw [List.mem_append] at hx
          rcases hx with hx | hx
          · simp only [lookups, createUserEvent, List.cons_append, List.nil_append,
              List.mem_cons, List.not_mem_nil, or_false] at hx
            rcases hx with rfl | rfl | rfl | rfl | rfl | rfl | rfl | rfl | rfl | rfl <;> cases hev
            rw [hcu] at hfail; cases hfail
            rfl
          · have := closeLog_no_CreateUser env role.DBName err _ x hx
            rw [hev] at this; cases this
  · intro hex res s h
    have hal : allowed env cfg name = true := by
      cases hA : allowed env cfg name with
      | true => rfl
      | false => exact absurd ((allowed_false_iff env cfg name).1 hA) hex
    have R := Run_of_run env req name b res s h
    cases R with
    | roleError err h1 => rw [hrole] at h1; cases h1
    | unknownRole h1 => rw [hrole] at h1; cases h1
    | configError role1 err h1 h2 => rw [hrole] at h1; cases h1; rw [hcfg] at h2; cases h2
    | denied role1 cfg1 h1 h2 h3 =>
      rw [hrole] at h1; cases h1; rw [hcfg] at h2; cases h2
      rw [hal] at h3; cases h3
    | _ => simp [lookups]

/-- The allow-list `["admin*", "ops"]` excludes the role `readonly`. -/
theorem permission_gate_witness :
    pathCredsCreateRead deniedEnv sampleReq "readonly" idleBackend
      = some ((none, some .ErrPermissionDenied),
          { b := idleBackend, log := lookups "readonly" (sampleRole Hour Hour) idleBackend }) :=
  (permission_gate deniedEnv sampleReq "readonly" idleBackend (sampleRole Hour Hour)
    { AllowedRoles := ["admin*", "ops"] } rfl rfl).1 (by
      refine ⟨by decide, ?_⟩
      rintro ⟨p, hp, hglob⟩
      simp only [List.mem_cons, List.mem_singleton, List.not_mem_nil, or_false] at hp
      rcases hp with rfl | rfl <;> revert hglob <;> decide)

/-! ## The create path and the reuse path -/

theorem lookupConn_withConn (b : databaseBackend) (name : String) (db : Handle) :
    lookupConn (exclusiveHeld (withConn b name db)).connections name = some db := by
  simp [exclusiveHeld, withConn, lookupConn]

/-- The claim C6 as stated fails: on the create path of the sample run the one
`CreateUser` call is made in a backend state whose exclusive lock is held and whose
pool already holds the new handle. -/
theorem exclusive_lock_released_before_use_counterexample :
    (pathCredsCreateRead (okEnv Hour Hour) sampleReq "readonly" idleBackend).map
        (fun r => r.2.log.filter (fun x => x.ev.expiration.isSome))
      = some [⟨.CreateUser 7 ["CREATE ROLE"] ⟨"token", "readonly"⟩ (1000 + Hour),
          { mu := { readers := 0, writer := true }, connections := [("pg", 7)] }⟩] := by
  decide

/-- C6 as amended: on the create path of `pathCredsCreateRead` (no handle
existed for the role's target and the connection was constructed as `db`),
every run that returns has taken the exclusive lock before `createDBObj`, has
not released it before `CreateUser`, and calls `CreateUser` on `db` with the
exclusive lock held and `db` already in the pool; the `Unlock` is the call
right after `CreateUser`, the only `CreateUser` call of the run, and the lock
is free again when the run returns.  Entered with a free lock, the run does
return. -/
theorem exclusive_lock_held_during_create_user (env : Env) (req : Request) (name : String)
    (b : databaseBackend) (role : roleEntry) (cfg : DatabaseConfig) (db : Handle)
    (hrole : env.Role name = .ok (some role))
    (hcfg : env.DatabaseConfig role.DBName = .ok cfg)
    (hgate : allowed env cfg name = true)
    (hget : lookupConn b.connections role.DBName = none)
    (hnew : env.newConnection role.DBName = .ok db) :
    (b.mu = ⟨0, false⟩ → (pathCredsCreateRead env req name b).isSome = true)
      ∧ ∀ (res : Result) (s : St), pathCredsCreateRead env req name b = some (res, s) →
          ∃ l1 pre l2,
            s.log = l1 ++ ⟨createUserEvent env req name role db, pre⟩ :: ⟨.Unlock, pre⟩ :: l2
              ∧ pre.mu.writer = true
              ∧ lookupConn pre.connections role.DBName = some db
              ∧ ⟨.Lock, b⟩ ∈ l1
              ∧ ⟨.createDBObj role.DBName, exclusiveHeld b⟩ ∈ l1
              ∧ (∀ y ∈ l1, y.ev ≠ .Unlock)
              ∧ (∀ y ∈ l1 ++ l2, y.ev.expiration = none)
              ∧ s.b.mu.writer = false := by
  refine ⟨returns_of_free env req name b, ?_⟩
  intro res s h
  have R := Run_of_run env req name b res s h
  cases R with
  | roleError err h1 => rw [hrole] at h1; cases h1
  | unknownRole h1 => rw [hrole] at h1; cases h1
  | configError role1 err h1 h2 => rw [hrole] at h1; cases h1; rw [hcfg] at h2; cases h2
  | denied role1 cfg1 h1 h2 h3 =>
    rw [hrole] at h1; cases h1; rw [hcfg] at h2; cases h2; rw [hgate] at h3; cases h3
  | reuseOk role1 cfg1 db1 u p h1 h2 h3 hw hg hcu =>
    rw [hrole] at h1; cases h1; rw [hget] at hg; cases hg
  | reuseFail role1 cfg1 db1 err h1 h2 h3 hw hg hcu hr =>
    rw [hrole] at h1; cases h1; rw [hget] at hg; cases hg
  | createError role1 cfg1 err h1 h2 h3 hw hr hg hn =>
    rw [hrole] at h1; cases h1; rw [hnew] at hn; cases hn
  | createOk role1 cfg1 db1 u p h1 h2 h3 hw hr hg hn hcu =>
    rw [hrole] at h1; cases h1; rw [hnew] at hn; cases hn
    refine ⟨lookups name role b ++ [⟨.RLock, b⟩, ⟨.getDBObj role.DBName, sharedHeld b⟩,
        ⟨.RUnlock, sharedHeld b⟩, ⟨.Lock, b⟩, ⟨.createDBObj role.DBName, exclusiveHeld b⟩,
        ⟨.newConnection role.DBName, exclusiveHeld b⟩],
      exclusiveHeld (withConn b role.DBName db), [], by simp [lookups], rfl,
      lookupConn_withConn b role.DBName db, by simp, by simp, ?_, ?_, hw⟩
    · intro y hy
      simp only [lookups, List.cons_append, List.nil_append, List.mem_cons,
        List.not_mem_nil, or_false] at hy
      rcases hy with rfl | rfl | rfl | rfl | rfl | rfl | rfl | rfl <;> simp
    · intro y hy
      simp only [lookups, List.cons_append, List.nil_append, List.mem_cons, List.append_nil,
        List.not_mem_nil, or_false] at hy
      rcases hy with rfl | rfl | rfl | rfl | rfl | rfl | rfl | rfl <;> rfl
  | createFail role1 cfg1 db1 err h1 h2 h3 hw hr hg hn hcu =>
    rw [hrole] at h1; cases h1; rw [hnew] at hn; cases hn
    refine ⟨lookups name role b ++ [⟨.RLock, b⟩, ⟨.getDBObj role.DBName, sharedHeld b⟩,
        ⟨.RUnlock, sharedHeld b⟩, ⟨.Lock, b⟩, ⟨.createDBObj role.DBName, exclusiveHeld b⟩,
        ⟨.newConnection role.DBName, exclusiveHeld b⟩],
      exclusiveHeld (withConn b role.DBName db),
      closeLog env role.DBName err (withConn b role.DBName db), by simp [lookups], rfl,
      lookupConn_withConn b role.DBName db, by simp, by simp, ?_, ?_, ?_⟩
    · intro y hy
      simp only [lookups, List.cons_append, List.nil_append, List.mem_cons,
        List.not_mem_nil, or_false] at hy
      rcases hy with rfl | rfl | rfl | rfl | rfl | rfl | rfl | rfl <;> simp
    · intro y hy
      rw [List.mem_append] at hy
      rcases hy with hy | hy
      · simp only [lookups, List.cons_append, List.nil_append, List.mem_cons,
          List.not_mem_nil, or_false] at hy
        rcases hy with rfl | rfl | rfl | rfl | rfl | rfl | rfl | rfl <;> rfl
      · exact closeLog_no_CreateUser _ _ _ _ y hy
    · unfold closeState
      split_ifs <;> exact hw

/-- The successful run on the empty pool takes the create path. -/
theorem exclusive_lock_held_during_create_user_witness :
    ∃ l1 pre l2,
      (sampleRun (okEnv Hour Hour) idleBackend).2.log
          = l1 ++ ⟨createUserEvent (okEnv Hour Hour) sampleReq "readonly"
              (sampleRole Hour Hour) 7, pre⟩ :: ⟨.Unlock, pre⟩ :: l2
        ∧ pre.mu.writer = true
        ∧ lookupConn pre.connections "pg" = some 7
        ∧ ⟨.Lock, idleBackend⟩ ∈ l1
        ∧ ⟨.createDBObj "pg", exclusiveHeld idleBackend⟩ ∈ l1
        ∧ (∀ y ∈ l1, y.ev ≠ .Unlock)
        ∧ (∀ y ∈ l1 ++ l2, y.ev.expiration = none)
        ∧ (sampleRun (okEnv Hour Hour) idleBackend).2.b.mu.writer = false :=
  (exclusive_lock_held_during_create_user (okEnv Hour Hour) sampleReq "readonly" idleBackend
    (sampleRole Hour Hour) { AllowedRoles := ["read*"] } 7 rfl rfl (by decide) rfl rfl).2
    (sampleRun (okEnv Hour Hour) idleBackend).1 (sampleRun (okEnv Hour Hour) idleBackend).2 rfl

/-- The claim C10 as stated fails: the pool holds a handle for `pg`, `CreateUser`
fails with a connection-fatal error, and the run takes the exclusive lock once and
leaves the pool empty. -/
theorem reuse_path_frame_counterexample :
    lookupConn pooledBackend.connections "pg" = some 7
      ∧ (pathCredsCreateRead shutdownEnv sampleReq "readonly" pooledBackend).map
          (fun r => (countEv .Lock r.2.log, r.2.b.connections))
        = some (1, []) := by
  decide

theorem closeLog_no_createDBObj (env : Env) (name : String) (err : GoError)
    (b : databaseBackend) (n : String) :
    ∀ y ∈ closeLog env name err b, y.ev ≠ .createDBObj n := by
  unfold closeLog
  cases env.IsConnectionFatal err <;> simp

/-- C10 as amended: in every run of `pathCredsCreateRead` that passes the
permission gate and returns, `createDBObj` is called if and only if the pool
held no handle for the role's target name when `getDBObj` looked; when a handle
`db` exists, the calls of the handler itself are `RLock`, `getDBObj`,
`CreateUser` on exactly `db` and `RUnlock`, all with the exclusive lock not
held and the pool as at entry; unless `CreateUser` fails with an error that the
invalidation step classifies as connection-fatal, the run never takes the
exclusive lock and leaves the backend as it was; if it does fail so, the
invalidation step, called after the `RUnlock`, takes the exclusive lock,
removes the handle from the pool and releases the lock.  Entered with a free
lock, the run does return. -/
theorem reuse_path_frame (env : Env) (req : Request) (name : String) (b : databaseBackend)
    (role : roleEntry) (cfg : DatabaseConfig)
    (hrole : env.Role name = .ok (some role))
    (hcfg : env.DatabaseConfig role.DBName = .ok cfg)
    (hgate : allowed env cfg name = true) :
    (b.mu = ⟨0, false⟩ → (pathCredsCreateRead env req name b).isSome = true)
      ∧ ∀ (res : Result) (s : St), pathCredsCreateRead env req name b = some (res, s) →
          ((∃ x ∈ s.log, x.ev = .createDBObj role.DBName)
              ↔ lookupConn b.connections role.DBName = none)
            ∧ ⟨.getDBObj role.DBName, sharedHeld b⟩ ∈ s.log
            ∧ b.mu.writer = false
            ∧ ∀ db, lookupConn b.connections role.DBName = some db →
                ∃ l2,
                  s.log = lookups name role b
                      ++ [⟨.RLock, b⟩, ⟨.getDBObj role.DBName, sharedHeld b⟩,
                        ⟨createUserEvent env req name role db, sharedHeld b⟩,
                        ⟨.RUnlock, sharedHeld b⟩]
                      ++ l2
                    ∧ (∀ y ∈ l2, y.ev.expiration = none)
                    ∧ ((∀ e, env.CreateUser db role.Statements ⟨req.DisplayName, name⟩
                            (env.Now + leaseTTL env role) = .error e →
                          env.IsConnectionFatal e = false) →
                        s.b = b ∧ countEv .Lock s.log = 0)
                    ∧ (∀ e, env.CreateUser db role.Statements ⟨req.DisplayName, name⟩
                            (env.Now + leaseTTL env role) = .error e →
                          env.IsConnectionFatal e = true →
                        s.b = withoutConn b role.DBName
                          ∧ l2 = [⟨.closeIfShutdown role.DBName e, b⟩, ⟨.Lock, b⟩,
                            ⟨.clearConnection role.DBName, exclusiveHeld b⟩,
                            ⟨.Unlock, exclusiveHeld (withoutConn b role.DBName)⟩]) := by
  refine ⟨returns_of_free env req name b, ?_⟩
  intro res s h
  have R := Run_of_run env req name b res s h
  cases R with
  | roleError err h1 => rw [hrole] at h1; cases h1
  | unknownRole h1 => rw [hrole] at h1; cases h1
  | configError role1 err h1 h2 => rw [hrole] at h1; cases h1; rw [hcfg] at h2; cases h2
  | denied role1 cfg1 h1 h2 h3 =>
    rw [hrole] at h1; cases h1; rw [hcfg] at h2; cases h2; rw [hgate] at h3; cases h3
  | reuseOk role1 cfg1 db1 u p h1 h2 h3 hw hg hcu =>
    rw [hrole] at h1; cases h1
    refine ⟨?_, by simp, hw, ?_⟩
    · simp [hg, lookups, createUserEvent]
    · intro db hdb
      rw [hg] at hdb; cases hdb
      refine ⟨[], by simp, by simp, ?_, ?_⟩
      · intro _
        exact ⟨rfl, by simp [countEv, lookups, createUserEvent]⟩
      · intro e he
        rw [hcu] at he; cases he
  | reuseFail role1 cfg1 db1 err h1 h2 h3 hw hg hcu hr =>
    rw [hrole] at h1; cases h1
    refine ⟨?_, by simp, hw, ?_⟩
    · simp only [hg, iff_false, not_exists, not_and, reduceCtorEq]
      intro x hx
      rw [List.mem_append] at hx
      rcases hx with hx | hx
      · simp only [lookups, createUserEvent, List.cons_append, List.nil_append, List.mem_cons,
          List.not_mem_nil, or_false] at hx
        rcases hx with rfl | rfl | rfl | rfl | rfl | rfl <;> simp
      · exact closeLog_no_createDBObj _ _ _ _ _ x hx
    · intro db hdb
      rw [hg] at hdb; cases hdb
      refine ⟨closeLog env role.DBName err b, rfl, closeLog_no_CreateUser _ _ _ _, ?_, ?_⟩
      · intro hnf
        have hf := hnf err hcu
        simp [closeState, closeLog, hf, countEv, lookups, createUserEvent]
      · intro e he hf
        rw [hcu] at he; cases he
        simp [closeState, closeLog, hf]
  | createError role1 cfg1 err h1 h2 h3 hw hr hg hn =>
    rw [hrole] at h1; cases h1
    refine ⟨?_, by simp, hw, ?_⟩
    · rw [hg]
      exact ⟨fun _ => rfl,
        fun _ => ⟨⟨.createDBObj role.DBName, exclusiveHeld b⟩, by simp, rfl⟩⟩
    · intro db hdb
      rw [hg] at hdb; cases hdb
  | createOk role1 cfg1 db1 u p h1 h2 h3 hw hr hg hn hcu =>
    rw [hrole] at h1; cases h1
    refine ⟨?_, by simp, hw, ?_⟩
    · rw [hg]
      exact ⟨fun _ => rfl,
        fun _ => ⟨⟨.createDBObj role.DBName, exclusiveHeld b⟩, by simp, rfl⟩⟩
    · intro db hdb
      rw [hg] at hdb; cases hdb
  | createFail role1 cfg1 db1 err h1 h2 h3 hw hr hg hn hcu =>
    rw [hrole] at h1; cases h1
    refine ⟨?_, by simp, hw, ?_⟩
    · rw [hg]
      exact ⟨fun _ => rfl,
        fun _ => ⟨⟨.createDBObj role.DBName, exclusiveHeld b⟩, by simp, rfl⟩⟩
    · intro db hdb
      rw [hg] at hdb; cases hdb

/-- The successful run on the pooled backend passes the gate and reuses the handle. -/
theorem reuse_path_frame_witness :
    (sampleRun (okEnv Hour Hour) pooledBackend).2.b = pooledBackend
      ∧ countEv .Lock (sampleRun (okEnv Hour Hour) pooledBackend).2.log = 0 := by
  obtain ⟨l2, _, _, hframe, _⟩ :=
    ((reuse_path_frame (okEnv Hour Hour) sampleReq "readonly" pooledBackend
      (sampleRole Hour Hour) { AllowedRoles := ["read*"] } rfl rfl (by decide)).2
      (sampleRun (okEnv Hour Hour) pooledBackend).1 (sampleRun (okEnv Hour Hour) pooledBackend).2
      rfl).2.2.2 7 rfl
  exact hframe (fun e he => by cases he)

/-! ## The machine run alone is the handler -/

theorem solo_of_Run (env : Env) (req : Request) (name : String) (b : databaseBackend)
    (res : Result) (s : St) (h : Run env req name b res s) :
    soloRun env req name 16 .entry { b := b, log := [] } = some (res, s) := by
  obtain ⟨⟨r, w⟩, conns⟩ := b
  cases h with
  | roleError err hrole => simp [soloRun, Pc.step, hrole, St.emit]
  | unknownRole hrole => simp [soloRun, Pc.step, hrole, St.emit]
  | configError role err hrole hcfg => simp [soloRun, Pc.step, hrole, hcfg, St.emit, lookups]
  | denied role cfg hrole hcfg hgate =>
    simp [soloRun, Pc.step, hrole, hcfg, St.emit, lookups, gate_of_not_allowed _ _ _ hgate]
  | reuseOk role cfg db u p hrole hcfg hgate hw hget hcu =>
    simp only at hw hget
    subst hw
    simp [soloRun, Pc.step, hrole, hcfg, gate_of_allowed _ _ _ hgate, St.emit, lookups, RLock,
      RWMutex.RLock, getDBObj, hget, hcu, RUnlock, unlockFunc,
      RWMutex.RUnlock, sharedHeld, createUserEvent, credsResponse]
  | reuseFail role cfg db err hrole hcfg hgate hw hget hcu hr =>
    simp only at hw hget hr
    subst hw
    cases hf : env.IsConnectionFatal err
    · simp [soloRun, Pc.step, hrole, hcfg, gate_of_allowed _ _ _ hgate, St.emit, lookups, RLock,
        RWMutex.RLock, getDBObj, hget, hcu, RUnlock, unlockFunc,
        RWMutex.RUnlock, sharedHeld, createUserEvent, hf, closeState, closeLog]
    · have hr0 := hr hf
      subst hr0
      simp [soloRun, Pc.step, hrole, hcfg, gate_of_allowed _ _ _ hgate, St.emit, lookups, RLock,
        RWMutex.RLock, getDBObj, hget, hcu, RUnlock, unlockFunc, Lock, Unlock, RWMutex.Lock,
        RWMutex.Unlock, clearConnection, exclusiveHeld, withoutConn,
        RWMutex.RUnlock, sharedHeld, createUserEvent, hf, closeState, closeLog]
  | createError role cfg err hrole hcfg hgate hw hr hget hnew =>
    simp only at hw hget hr
    subst hw hr
    simp [soloRun, Pc.step, hrole, hcfg, gate_of_allowed _ _ _ hgate, St.emit, lookups, RLock,
      RWMutex.RLock, getDBObj, hget, RUnlock, RWMutex.RUnlock, sharedHeld, Lock, RWMutex.Lock,
      hnew, Unlock, RWMutex.Unlock, exclusiveHeld]
  | createOk role cfg db u p hrole hcfg hgate hw hr hget hnew hcu =>
    simp only at hw hget hr
    subst hw hr
    simp [soloRun, Pc.step, hrole, hcfg, gate_of_allowed _ _ _ hgate, St.emit, lookups, RLock,
      RWMutex.RLock, getDBObj, hget, RUnlock, RWMutex.RUnlock, sharedHeld, Lock, RWMutex.Lock,
      hnew, Unlock, RWMutex.Unlock, exclusiveHeld, unlockFunc, hcu, withConn, createUserEvent,
      credsResponse]
  | createFail role cfg db err hrole hcfg hgate hw hr hget hnew hcu =>
    simp only at hw hget hr
    subst hw hr
    cases hf : env.IsConnectionFatal err <;>
    simp [soloRun, Pc.step, hrole, hcfg, gate_of_allowed _ _ _ hgate, St.emit, lookups, RLock,
      RWMutex.RLock, getDBObj, hget, RUnlock, RWMutex.RUnlock, sharedHeld, Lock, RWMutex.Lock,
      hnew, Unlock, RWMutex.Unlock, exclusiveHeld, unlockFunc, hcu, withConn, createUserEvent,
      hf, closeState, closeLog, clearConnection, withoutConn]

/-- The machine run alone is the handler: a call stepped to its return on the
backend `b` gives the result, the final state and the log of
`pathCredsCreateRead`, and waits for ever exactly when the handler does. -/
theorem soloRun_eq (env : Env) (req : Request) (name : String) (b : databaseBackend) :
    soloRun env req name 16 .entry { b := b, log := [] }
      = pathCredsCreateRead env req name b := by
  cases hrun : pathCredsCreateRead env req name b with
  | some rs =>
    obtain ⟨res, s⟩ := rs
    exact solo_of_Run env req name b res s (Run_of_run env req name b res s hrun)
  | none =>
    have hno : ∀ res s, ¬ Run env req name b res s := by
      intro res s R
      rw [run_of_Run env req name b res s R] at hrun
      cases hrun
    obtain ⟨⟨r, w⟩, conns⟩ := b
    cases hrole : env.Role name with
    | error err => exact absurd (.roleError err hrole) (hno _ _)
    | ok orole =>
      cases orole with
      | none => exact absurd (.unknownRole hrole) (hno _ _)
      | some role =>
        cases hcfg : env.DatabaseConfig role.DBName with
        | error err => exact absurd (.configError role err hrole hcfg) (hno _ _)
        | ok cfg =>
          cases hgate : allowed env cfg name with
          | false => exact absurd (.denied role cfg hrole hcfg hgate) (hno _ _)
          | true =>
            cases w with
            | true =>
              simp [soloRun, Pc.step, hrole, hcfg, gate_of_allowed _ _ _ hgate, St.emit, RLock,
                RWMutex.RLock]
            | false =>
              cases hget : lookupConn conns role.DBName with
              | some db =>
                cases hcu : env.CreateUser db role.Statements ⟨req.DisplayName, name⟩
                    (env.Now + leaseTTL env role) with
                | ok up =>
                  exact absurd (.reuseOk role cfg db up.1 up.2 hrole hcfg hgate rfl hget hcu)
                    (hno _ _)
                | error err =>
                  by_cases hr : env.IsConnectionFatal err = true → r = 0
                  · exact absurd (.reuseFail role cfg db err hrole hcfg hgate rfl hget hcu hr)
                      (hno _ _)
                  · push_neg at hr
                    simp [soloRun, Pc.step, hrole, hcfg, gate_of_allowed _ _ _ hgate, St.emit,
                      RLock, RWMutex.RLock, getDBObj, hget, hcu, RUnlock, unlockFunc,
                      RWMutex.RUnlock, hr.1, Lock, RWMutex.Lock, hr.2]
              | none =>
                by_cases hr : r = 0
                · subst hr
                  cases hnew : env.newConnection role.DBName with
                  | error err =>
                    exact absurd (.createError role cfg err hrole hcfg hgate rfl rfl hget hnew)
                      (hno _ _)
                  | ok db =>
                    cases hcu : env.CreateUser db role.Statements ⟨req.DisplayName, name⟩
                        (env.Now + leaseTTL env role) with
                    | ok up =>
                      exact absurd (.createOk role cfg db up.1 up.2 hrole hcfg hgate rfl rfl
                        hget hnew hcu) (hno _ _)
                    | error err =>
                      exact absurd (.createFail role cfg db err hrole hcfg hgate rfl rfl
                        hget hnew hcu) (hno _ _)
                · simp [soloRun, Pc.step, hrole, hcfg, gate_of_allowed _ _ _ hgate, St.emit,
                    RLock, RWMutex.RLock, getDBObj, hget, RUnlock, RWMutex.RUnlock, Lock,
                    RWMutex.Lock, hr]

/-! ## Concurrent calls create the connection once -/

theorem RLock_spec (s s1 : St) (h : RLock s = some s1) :
    s.b.mu.writer = false ∧ s1.b.mu.readers = s.b.mu.readers + 1 ∧ s1.b.mu.writer = false
      ∧ s1.b.connections = s.b.connections ∧ s1.log = s.log ++ [⟨.RLock, s.b⟩] := by
  obtain ⟨⟨⟨r, w⟩, conns⟩, log⟩ := s
  cases w <;> simp [RLock, RWMutex.RLock] at h
  subst h
  simp

theorem RUnlock_spec (s s1 : St) (h : RUnlock s = some s1) :
    s.b.mu.readers ≠ 0 ∧ s1.b.mu.readers + 1 = s.b.mu.readers
      ∧ s1.b.mu.writer = s.b.mu.writer
      ∧ s1.b.connections = s.b.connections ∧ s1.log = s.log ++ [⟨.RUnlock, s.b⟩] := by
  obtain ⟨⟨⟨r, w⟩, conns⟩, log⟩ := s
  cases r <;> simp [RUnlock, RWMutex.RUnlock] at h
  subst h
  simp

theorem Lock_spec (s s1 : St) (h : Lock s = some s1) :
    s.b.mu.writer = false ∧ s.b.mu.readers = 0 ∧ s1.b.mu.readers = 0 ∧ s1.b.mu.writer = true
      ∧ s1.b.connections = s.b.connections ∧ s1.log = s.log ++ [⟨.Lock, s.b⟩] := by
  obtain ⟨⟨⟨r, w⟩, conns⟩, log⟩ := s
  cases w <;> cases r <;> simp [Lock, RWMutex.Lock] at h
  subst h
  simp

theorem Unlock_spec (s s1 : St) (h : Unlock s = some s1) :
    s.b.mu.writer = true ∧ s1.b.mu.readers = s.b.mu.readers ∧ s1.b.mu.writer = false
      ∧ s1.b.connections = s.b.connections ∧ s1.log = s.log ++ [⟨.Unlock, s.b⟩] := by
  obtain ⟨⟨⟨r, w⟩, conns⟩, log⟩ := s
  cases w <;> simp [Unlock, RWMutex.Unlock] at h
  subst h
  simp

theorem countEv_append (e : Event) (l : List Entry) (x : Entry) :
    countEv e (l ++ [x]) = countEv e l + (if x.ev = e then 1 else 0) := by
  simp [countEv, List.countP_append, List.countP_cons]

theorem rank_step (env : Env) (req : Request) (name : String) (pc pc1 : Pc) (s s1 : St)
    (h : pc.step env req name s = some (pc1, s1)) : pc1.rank < pc.rank := by
  cases pc <;> simp only [Pc.step] at h <;> (try split at h) <;> (try split at h) <;>
    simp only [Option.map_eq_some', Option.some.injEq, Prod.mk.injEq, reduceCtorEq,
      false_and, exists_false] at h <;>
    first
      | (obtain ⟨rfl, _⟩ := h; simp [Pc.rank])
      | (obtain ⟨_, _, rfl, _⟩ := h; simp [Pc.rank])

theorem effect_emit (dbn : String) (h : Handle) (pc pc1 : Pc) (s : St) (e : Event)
    (hne : e ≠ .newConnection dbn)
    (hcu : ∀ db st uc ex, e = .CreateUser db st uc ex → db = h)
    (hs : holdsShared pc = holdsShared pc1) (hx : holdsExclusive pc = holdsExclusive pc1)
    (hok : pc1.ok dbn h (lookupConn s.b.connections dbn) (countEv (.newConnection dbn) s.log))
    (hpool : PoolOk h (lookupConn s.b.connections dbn) (countEv (.newConnection dbn) s.log))
    (hfree : s.b.mu.writer = false → lookupConn s.b.connections dbn = none →
      countEv (.newConnection dbn) s.log = 0) :
    Effect dbn h pc pc1 s (s.emit e) := by
  have hc : countEv (.newConnection dbn) (s.emit e).log = countEv (.newConnection dbn) s.log := by
    simp [St.emit, countEv_append, hne]
  refine ⟨?_, ?_, ?_, ?_, ?_, ?_, ?_⟩
  · rw [hc]; exact hok
  · simp [St.emit, hs]
  · simp [St.emit, hx]
  · exact Or.inl ⟨rfl, hc⟩
  · rw [hc]; exact hpool
  · rw [hc]; exact hfree
  · intro x hx
    simp only [St.emit, List.mem_append, List.mem_singleton] at hx
    rcases hx with hx | rfl
    · exact Or.inl hx
    · exact Or.inr hcu

theorem effect_lock (dbn : String) (h : Handle) (pc pc1 : Pc) (s s1 : St) (e : Event)
    (hconn : s1.b.connections = s.b.connections) (hlog : s1.log = s.log ++ [⟨e, s.b⟩])
    (he : e = .RLock ∨ e = .RUnlock ∨ e = .Lock ∨ e = .Unlock)
    (hr : s1.b.mu.readers + holdsShared pc = s.b.mu.readers + holdsShared pc1)
    (hw : s1.b.mu.writer.toNat + holdsExclusive pc = s.b.mu.writer.toNat + holdsExclusive pc1)
    (hok : pc1.ok dbn h (lookupConn s.b.connections dbn) (countEv (.newConnection dbn) s.log))
    (hpool : PoolOk h (lookupConn s.b.connections dbn) (countEv (.newConnection dbn) s.log))
    (hfree : s1.b.mu.writer = false → lookupConn s.b.connections dbn = none →
      countEv (.newConnection dbn) s.log = 0) :
    Effect dbn h pc pc1 s s1 := by
  have hc : countEv (.newConnection dbn) s1.log = countEv (.newConnection dbn) s.log := by
    rw [hlog, countEv_append]
    rcases he with rfl | rfl | rfl | rfl <;> simp
  refine ⟨?_, hr, hw, ?_, ?_, ?_, ?_⟩
  · rw [hc, hconn]; exact hok
  · exact Or.inl ⟨by rw [hconn], hc⟩
  · rw [hc, hconn]; exact hpool
  · rw [hc, hconn]; exact hfree
  · intro x hx
    rw [hlog] at hx
    simp only [List.mem_append, List.mem_singleton] at hx
    rcases hx with hx | rfl
    · exact Or.inl hx
    · refine Or.inr ?_
      intro db st uc ex hev
      rcases he with rfl | rfl | rfl | rfl <;> cases hev

theorem lookupConn_cons_self (conns : List (String × Handle)) (name : String) (db : Handle) :
    lookupConn ((name, db) :: conns) name = some db := by
  simp [lookupConn]

theorem step_effect (env : Env) (req : Request) (name dbn : String) (h : Handle)
    (hadm : Admitted env dbn name) (hnew : env.newConnection dbn = .ok h)
    (hcu : ∀ st uc ex, ∃ up, env.CreateUser h st uc ex = .ok up)
    (pc pc1 : Pc) (s s1 : St) (hstep : pc.step env req name s = some (pc1, s1))
    (hok : pc.ok dbn h (lookupConn s.b.connections dbn) (countEv (.newConnection dbn) s.log))
    (hpool : PoolOk h (lookupConn s.b.connections dbn) (countEv (.newConnection dbn) s.log))
    (hfree : s.b.mu.writer = false → lookupConn s.b.connections dbn = none →
      countEv (.newConnection dbn) s.log = 0)
    (hexcl : holdsExclusive pc = 1 → s.b.mu.writer = true) :
    Effect dbn h pc pc1 s s1 := by
  obtain ⟨role0, cfg, hrole, hdb0, hcfg, hal⟩ := hadm
  cases pc with
  | entry =>
    simp only [Pc.step, hrole, Option.some.injEq, Prod.mk.injEq] at hstep
    obtain ⟨rfl, rfl⟩ := hstep
    exact effect_emit dbn h _ _ s _ (by simp) (by intro _ _ _ _ he; cases he) rfl rfl hdb0
      hpool hfree
  | loadConfig role =>
    have hd : role.DBName = dbn := hok
    simp only [Pc.step, hd, hcfg, gate_of_allowed _ _ _ hal, Bool.false_eq_true, if_false,
      Option.some.injEq, Prod.mk.injEq] at hstep
    obtain ⟨rfl, rfl⟩ := hstep
    exact effect_emit dbn h _ _ s _ (by simp) (by intro _ _ _ _ he; cases he) rfl rfl hd
      hpool hfree
  | acquire role =>
    have hd : role.DBName = dbn := hok
    simp only [Pc.step, Option.map_eq_some', Prod.mk.injEq] at hstep
    obtain ⟨s2, hl, rfl, rfl⟩ := hstep
    obtain ⟨hw, hr, hw1, hconn, hlog⟩ := RLock_spec s s2 hl
    exact effect_lock dbn h _ _ s s2 .RLock hconn hlog (Or.inl rfl)
      (by simp [holdsShared, hr]) (by simp [holdsExclusive, hw, hw1]) hd hpool
      (fun _ => hfree hw)
  | lookup role =>
    have hd : role.DBName = dbn := hok
    simp only [Pc.step, getDBObj, hd] at hstep
    rcases hpool.1 with hlk | hlk
    · rw [hlk] at hstep
      simp only [Option.some.injEq, Prod.mk.injEq] at hstep
      obtain ⟨rfl, rfl⟩ := hstep
      exact effect_emit dbn h _ _ s _ (by simp) (by intro _ _ _ _ he; cases he) rfl rfl hd
        hpool hfree
    · rw [hlk] at hstep
      simp only [Option.some.injEq, Prod.mk.injEq] at hstep
      obtain ⟨rfl, rfl⟩ := hstep
      exact effect_emit dbn h _ _ s _ (by simp) (by intro _ _ _ _ he; cases he) rfl rfl
        ⟨hd, rfl, hlk, hpool.2.2 hlk⟩ hpool hfree
  | release role =>
    have hd : role.DBName = dbn := hok
    simp only [Pc.step, Option.map_eq_some', Prod.mk.injEq] at hstep
    obtain ⟨s2, hl, rfl, rfl⟩ := hstep
    obtain ⟨hr0, hr, hw1, hconn, hlog⟩ := RUnlock_spec s s2 hl
    exact effect_lock dbn h _ _ s s2 .RUnlock hconn hlog (Or.inr (Or.inl rfl))
      (by simp [holdsShared, hr]) (by simp [holdsExclusive, hw1]) hd hpool
      (fun hw => hfree (hw1 ▸ hw))
  | upgrade role =>
    have hd : role.DBName = dbn := hok
    simp only [Pc.step, Option.map_eq_some', Prod.mk.injEq] at hstep
    obtain ⟨s2, hl, rfl, rfl⟩ := hstep
    obtain ⟨hw, hr0, hr, hw1, hconn, hlog⟩ := Lock_spec s s2 hl
    exact effect_lock dbn h _ _ s s2 .Lock hconn hlog (Or.inr (Or.inr (Or.inl rfl)))
      (by simp [holdsShared, hr, hr0]) (by simp [holdsExclusive, hw, hw1]) ⟨hd, hfree hw⟩ hpool
      (fun hw2 => by rw [hw1] at hw2; cases hw2)
  | create role =>
    obtain ⟨hd, hcnt⟩ := hok
    simp only [Pc.step, St.emit, hd] at hstep
    rcases hpool.1 with hlk | hlk
    · rw [hlk] at hstep
      simp only [Option.some.injEq, Prod.mk.injEq] at hstep
      obtain ⟨rfl, rfl⟩ := hstep
      exact effect_emit dbn h _ _ s _ (by simp) (by intro _ _ _ _ he; cases he) rfl rfl
        ⟨hd, hlk, hcnt hlk⟩ hpool hfree
    · rw [hlk] at hstep
      simp only [Option.some.injEq, Prod.mk.injEq] at hstep
      obtain ⟨rfl, rfl⟩ := hstep
      exact effect_emit dbn h _ _ s _ (by simp) (by intro _ _ _ _ he; cases he) rfl rfl
        ⟨hd, rfl, hlk, hpool.2.2 hlk⟩ hpool hfree
  | construct role =>
    obtain ⟨hd, hlk, hcnt⟩ := hok
    simp only [Pc.step, hd, hnew, Option.some.injEq, Prod.mk.injEq] at hstep
    obtain ⟨rfl, rfl⟩ := hstep
    have hw := hexcl rfl
    have hc : countEv (.newConnection dbn) (s.emit (.newConnection dbn)).log = 1 := by
      simp [St.emit, countEv_append, hcnt]
    refine ⟨⟨hd, rfl, hlk, hc⟩, by simp [St.emit, holdsShared],
      by simp [St.emit, holdsExclusive], Or.inr ⟨rfl, hlk⟩, ⟨Or.inl hlk, by rw [hc], fun _ => hc⟩,
      ?_, ?_⟩
    · intro hw2
      simp only [St.emit] at hw2
      rw [hw] at hw2; cases hw2
    · intro x hx
      simp only [St.emit, List.mem_append, List.mem_singleton] at hx
      rcases hx with hx | rfl
      · exact Or.inl hx
      · exact Or.inr (by intro _ _ _ _ he; cases he)
  | insert role db =>
    obtain ⟨hd, hdb, hlk, hcnt⟩ := hok
    simp only [Pc.step, Option.some.injEq, Prod.mk.injEq] at hstep
    obtain ⟨rfl, rfl⟩ := hstep
    subst hdb
    have hl : lookupConn ((role.DBName, db) :: s.b.connections) dbn = some db := by
      rw [hd]; exact lookupConn_cons_self _ _ _
    refine ⟨⟨hd, rfl, hl, hcnt⟩, by simp [holdsShared], by simp [holdsExclusive],
      Or.inr ⟨rfl, hlk⟩, ⟨Or.inr hl, by rw [hcnt], fun _ => hcnt⟩, ?_, fun x hx => Or.inl hx⟩
    intro _ hl2
    rw [hl] at hl2; cases hl2
  | createUser role db exclusive =>
    obtain ⟨hd, hdb, hlk, hcnt⟩ := hok
    subst hdb
    obtain ⟨⟨u, p⟩, hup⟩ := hcu role.Statements ⟨req.DisplayName, name⟩
      (env.Now + leaseTTL env role)
    simp only [Pc.step, hup, Option.some.injEq, Prod.mk.injEq] at hstep
    obtain ⟨rfl, rfl⟩ := hstep
    exact effect_emit dbn db _ _ s _ (by simp)
      (by intro _ _ _ _ he; cases he; rfl)
      (by cases exclusive <;> rfl) (by cases exclusive <;> rfl)
      ⟨by simp [Response.setTTL, SecretResponse], hlk, hcnt⟩ hpool hfree
  | userOk resp exclusive =>
    obtain ⟨hsec, hlk, hcnt⟩ := hok
    simp only [Pc.step, Option.map_eq_some', Prod.mk.injEq] at hstep
    obtain ⟨s2, hl, rfl, rfl⟩ := hstep
    cases exclusive with
    | false =>
      obtain ⟨hr0, hr, hw1, hconn, hlog⟩ := RUnlock_spec s s2 hl
      exact effect_lock dbn h _ _ s s2 .RUnlock hconn hlog (Or.inr (Or.inl rfl))
        (by simp [holdsShared, hr]) (by simp [holdsExclusive, hw1]) ⟨⟨resp, rfl, hsec⟩, hlk, hcnt⟩
        hpool (fun hw => hfree (hw1 ▸ hw))
    | true =>
      obtain ⟨hw, hr, hw1, hconn, hlog⟩ := Unlock_spec s s2 hl
      exact effect_lock dbn h _ _ s s2 .Unlock hconn hlog (Or.inr (Or.inr (Or.inr rfl)))
        (by simp [holdsShared, hr]) (by simp [holdsExclusive, hw, hw1])
        ⟨⟨resp, rfl, hsec⟩, hlk, hcnt⟩ hpool
        (fun _ hl2 => by rw [hlk] at hl2; cases hl2)
  | returned res => simp [Pc.step] at hstep
  | createFailed role err => exact absurd hok (by simp [Pc.ok])
  | userFailed role err exclusive => exact absurd hok (by simp [Pc.ok])
  | invalidate role err => exact absurd hok (by simp [Pc.ok])
  | invalidateLock role err => exact absurd hok (by simp [Pc.ok])
  | invalidateClear role err => exact absurd hok (by simp [Pc.ok])
  | invalidateUnlock err => exact absurd hok (by simp [Pc.ok])

theorem sum_map_set {α : Type} (f : α → Nat) (l : List α) (i : Nat) (x a : α)
    (hx : l[i]? = some x) : ((l.set i a).map f).sum + f x = (l.map f).sum + f a := by
  induction l generalizing i with
  | nil => simp at hx
  | cons y ys ih =>
    cases i with
    | zero =>
      simp only [List.getElem?_cons_zero, Option.some.injEq] at hx
      subst hx
      simp only [List.set_cons_zero, List.map_cons, List.sum_cons]
      omega
    | succ n =>
      simp only [List.getElem?_cons_succ] at hx
      have := ih n hx
      simp only [List.set_cons_succ, List.map_cons, List.sum_cons]
      omega

theorem le_sum_map {α : Type} (f : α → Nat) (l : List α) (i : Nat) (x : α)
    (hx : l[i]? = some x) : f x ≤ (l.map f).sum := by
  induction l generalizing i with
  | nil => simp at hx
  | cons y ys ih =>
    cases i with
    | zero =>
      simp only [List.getElem?_cons_zero, Option.some.injEq] at hx
      subst hx
      simp only [List.map_cons, List.sum_cons]
      omega
    | succ n =>
      simp only [List.getElem?_cons_succ] at hx
      have := ih n hx
      simp only [List.map_cons, List.sum_cons]
      omega

theorem exists_pos_of_sum_pos {α : Type} (f : α → Nat) (l : List α)
    (h : 0 < (l.map f).sum) : ∃ (i : Nat) (x : α), l[i]? = some x ∧ 0 < f x := by
  induction l with
  | nil => simp at h
  | cons y ys ih =>
    simp only [List.map_cons, List.sum_cons] at h
    by_cases hy : 0 < f y
    · exact ⟨0, y, by simp, hy⟩
    · obtain ⟨i, x, hx, hpos⟩ := ih (by omega)
      exact ⟨i + 1, x, by simpa using hx, hpos⟩

theorem other_zero_of_sum_le_one {α : Type} (f : α → Nat) (l : List α) (i j : Nat) (a b : α)
    (hsum : (l.map f).sum ≤ 1) (hi : l[i]? = some a) (hj : l[j]? = some b) (hij : i ≠ j)
    (ha : f a = 1) : f b = 0 := by
  have h1 := sum_map_set f l i a b hi
  have h2 : f b ≤ ((l.set i b).map f).sum - f b + f b := by omega
  have hj2 : (l.set i b)[j]? = some b := by
    rw [List.getElem?_set_ne hij]; exact hj
  have hi2 : (l.set i b)[i]? = some b := by
    have hlt : i < l.length := by
      rcases Nat.lt_or_ge i l.length with hlt | hge
      · exact hlt
      · rw [List.getElem?_eq_none hge] at hi; cases hi
    rw [List.getElem?_set_self hlt]
  have h3 := sum_map_set f (l.set i b) j b b hj2
  -- the list with `b` at both `i` and `j` has sum at least `2 * f b`
  have h4 : f b + f b ≤ ((l.set i b).map f).sum := by
    clear h1 h2 h3 hsum ha hi hj
    generalize l.set i b = m at hi2 hj2
    induction m generalizing i j with
    | nil => simp at hi2
    | cons y ys ih =>
      cases i with
      | zero =>
        cases j with
        | zero => exact absurd rfl hij
        | succ n =>
          simp only [List.getElem?_cons_zero, Option.some.injEq] at hi2
          simp only [List.getElem?_cons_succ] at hj2
          have := le_sum_map f ys n b hj2
          subst hi2
          simp only [List.map_cons, List.sum_cons]
          omega
      | succ m =>
        cases j with
        | zero =>
          simp only [List.getElem?_cons_zero, Option.some.injEq] at hj2
          simp only [List.getElem?_cons_succ] at hi2
          have := le_sum_map f ys m b hi2
          subst hj2
          simp only [List.map_cons, List.sum_cons]
          omega
        | succ n =>
          simp only [List.getElem?_cons_succ] at hi2 hj2
          have := ih m n (by omega) hi2 hj2
          simp only [List.map_cons, List.sum_cons]
          omega
  omega

theorem ok_frame (dbn : String) (h : Handle) (pc : Pc) (cnt cnt1 : Nat) (lk1 : Option Handle)
    (hx : holdsExclusive pc = 0) (hok : pc.ok dbn h none cnt) : pc.ok dbn h lk1 cnt1 := by
  cases pc <;> simp_all [Pc.ok, holdsExclusive]

theorem Sys_step_inv (env : Env) (i : Nat) (σ σ1 : Sys) (hstep : Sys.step env i σ = some σ1) :
    ∃ t pc1 s1, σ.threads[i]? = some t ∧ t.pc.step env t.req t.name σ.st = some (pc1, s1)
      ∧ σ1 = { st := s1, threads := σ.threads.set i { t with pc := pc1 } } := by
  unfold Sys.step at hstep
  cases ht : σ.threads[i]? with
  | none => rw [ht] at hstep; cases hstep
  | some t =>
    rw [ht] at hstep
    simp only at hstep
    cases hs : t.pc.step env t.req t.name σ.st with
    | none => rw [hs] at hstep; cases hstep
    | some r =>
      obtain ⟨pc1, s1⟩ := r
      rw [hs] at hstep
      simp only [Option.some.injEq] at hstep
      exact ⟨t, pc1, s1, rfl, hs, hstep.symm⟩

theorem Inv_step (env : Env) (dbn : String) (h : Handle)
    (hnew : env.newConnection dbn = .ok h)
    (hcu : ∀ st uc ex, ∃ up, env.CreateUser h st uc ex = .ok up)
    (i : Nat) (σ σ1 : Sys) (hinv : Inv env dbn h σ) (hstep : Sys.step env i σ = some σ1) :
    Inv env dbn h σ1 := by
  obtain ⟨t, pc1, s1, ht, hs, rfl⟩ := Sys_step_inv env i σ σ1 hstep
  obtain ⟨hadm, hok⟩ := hinv.good i t ht
  have hle : (σ.threads.map (fun t => holdsExclusive t.pc)).sum ≤ 1 := by
    rw [← hinv.writer]; cases σ.st.b.mu.writer <;> simp
  have hexcl : holdsExclusive t.pc = 1 → σ.st.b.mu.writer = true := by
    intro h1
    have := le_sum_map (fun t => holdsExclusive t.pc) σ.threads i t ht
    rw [← hinv.writer] at this
    simp only [h1] at this
    cases hw : σ.st.b.mu.writer with
    | true => rfl
    | false => rw [hw] at this; simp at this
  have E := step_effect env t.req t.name dbn h hadm hnew hcu t.pc pc1 σ.st s1 hs hok hinv.pool
    hinv.free hexcl
  have hS := sum_map_set (fun t => holdsShared t.pc) σ.threads i t { t with pc := pc1 } ht
  have hX := sum_map_set (fun t => holdsExclusive t.pc) σ.threads i t { t with pc := pc1 } ht
  refine ⟨?_, ?_, E.pool, E.free, ?_, ?_⟩
  · have := E.readers
    have := hinv.readers
    simp only at hS ⊢
    omega
  · have := E.writer
    have := hinv.writer
    simp only at hX ⊢
    omega
  · intro x hx db st uc ex hev
    rcases E.users x hx with hx | hx
    · exact hinv.users x hx db st uc ex hev
    · exact hx db st uc ex hev
  · intro j u hu
    simp only at hu
    by_cases hij : i = j
    · subst hij
      have hlt : i < σ.threads.length := by
        rcases Nat.lt_or_ge i σ.threads.length with hlt | hge
        · exact hlt
        · rw [List.getElem?_eq_none hge] at ht; cases ht
      rw [List.getElem?_set_self hlt] at hu
      cases hu
      exact ⟨hadm, E.ok⟩
    · rw [List.getElem?_set_ne hij] at hu
      obtain ⟨hadm2, hok2⟩ := hinv.good j u hu
      refine ⟨hadm2, ?_⟩
      rcases E.view with ⟨hl, hc⟩ | ⟨hx1, hl⟩
      · simp only at hl hc ⊢
        rw [hl, hc]; exact hok2
      · have hz := other_zero_of_sum_le_one (fun t => holdsExclusive t.pc) σ.threads i j t u
          hle ht hu hij hx1
        rw [hl] at hok2
        exact ok_frame dbn h u.pc _ _ _ hz hok2

theorem Inv_exec (env : Env) (dbn : String) (h : Handle)
    (hnew : env.newConnection dbn = .ok h)
    (hcu : ∀ st uc ex, ∃ up, env.CreateUser h st uc ex = .ok up)
    (sched : List Nat) (σ σ1 : Sys) (hinv : Inv env dbn h σ)
    (hexec : Sys.exec env sched σ = some σ1) : Inv env dbn h σ1 := by
  induction sched generalizing σ with
  | nil =>
    simp only [Sys.exec, Option.some.injEq] at hexec
    subst hexec
    exact hinv
  | cons i rest ih =>
    simp only [Sys.exec] at hexec
    cases hs : Sys.step env i σ with
    | none => rw [hs] at hexec; cases hexec
    | some σ2 =>
      rw [hs] at hexec
      exact ih σ2 (Inv_step env dbn h hnew hcu i σ σ2 hinv hs) hexec

theorem rank_exec (env : Env) (sched : List Nat) (σ σ1 : Sys)
    (hexec : Sys.exec env sched σ = some σ1) :
    sched.length + (σ1.threads.map (fun t => t.pc.rank)).sum
      ≤ (σ.threads.map (fun t => t.pc.rank)).sum
      ∧ σ1.threads.length = σ.threads.length := by
  induction sched generalizing σ with
  | nil =>
    simp only [Sys.exec, Option.some.injEq] at hexec
    subst hexec
    simp
  | cons i rest ih =>
    simp only [Sys.exec] at hexec
    cases hs : Sys.step env i σ with
    | none => rw [hs] at hexec; cases hexec
    | some σ2 =>
      rw [hs] at hexec
      obtain ⟨t, pc1, s1, ht, hst, rfl⟩ := Sys_step_inv env i σ σ2 hs
      have hr := rank_step env t.req t.name t.pc pc1 σ.st s1 hst
      have hsum := sum_map_set (fun t => t.pc.rank) σ.threads i t { t with pc := pc1 } ht
      obtain ⟨h1, h2⟩ := ih _ hexec
      simp only [List.length_set] at h2
      simp only at hsum h1
      refine ⟨?_, h2⟩
      simp only [List.length_cons]
      omega

theorem RLock_some (s : St) (hw : s.b.mu.writer = false) : (RLock s).isSome = true := by
  obtain ⟨⟨⟨r, w⟩, conns⟩, log⟩ := s
  simp only at hw
  subst hw
  simp [RLock, RWMutex.RLock]

theorem RUnlock_some (s : St) (hr : s.b.mu.readers ≠ 0) : (RUnlock s).isSome = true := by
  obtain ⟨⟨⟨r, w⟩, conns⟩, log⟩ := s
  simp only at hr
  simp [RUnlock, RWMutex.RUnlock, hr]

theorem Lock_some (s : St) (hw : s.b.mu.writer = false) (hr : s.b.mu.readers = 0) :
    (Lock s).isSome = true := by
  obtain ⟨⟨⟨r, w⟩, conns⟩, log⟩ := s
  simp only at hw hr
  subst hw hr
  simp [Lock, RWMutex.Lock]

theorem Unlock_some (s : St) (hw : s.b.mu.writer = true) : (Unlock s).isSome = true := by
  obtain ⟨⟨⟨r, w⟩, conns⟩, log⟩ := s
  simp only at hw
  subst hw
  simp [Unlock, RWMutex.Unlock]

theorem step_some (env : Env) (req : Request) (name dbn : String) (h : Handle)
    (pc : Pc) (s : St)
    (hok : pc.ok dbn h (lookupConn s.b.connections dbn) (countEv (.newConnection dbn) s.log))
    (hA : holdsShared pc ≤ s.b.mu.readers)
    (hB : holdsExclusive pc ≤ s.b.mu.writer.toNat)
    (hC : 0 < holdsExclusive pc ∨ (s.b.mu.writer = false ∧ 0 < holdsShared pc)
      ∨ (s.b.mu.writer = false ∧ s.b.mu.readers = 0 ∧ pc.isReturned = false)) :
    (pc.step env req name s).isSome = true := by
  have hwt : 0 < s.b.mu.writer.toNat → s.b.mu.writer = true := by
    cases s.b.mu.writer <;> simp
  cases pc with
  | entry =>
    simp only [Pc.step]
    split <;> rfl
  | loadConfig role =>
    simp only [Pc.step]
    split
    · rfl
    · split <;> rfl
  | acquire role =>
    have hw : s.b.mu.writer = false := by
      rcases hC with hC | hC | hC
      · simp [holdsExclusive] at hC
      · exact hC.1
      · exact hC.1
    simp only [Pc.step, Option.isSome_map']
    exact RLock_some s hw
  | lookup role =>
    simp only [Pc.step, getDBObj]
    split <;> rfl
  | release role =>
    simp only [Pc.step, Option.isSome_map']
    exact RUnlock_some s (by simp only [holdsShared] at hA; omega)
  | upgrade role =>
    have hw : s.b.mu.writer = false ∧ s.b.mu.readers = 0 := by
      rcases hC with hC | hC | hC
      · simp [holdsExclusive] at hC
      · simp [holdsShared] at hC
      · exact ⟨hC.1, hC.2.1⟩
    simp only [Pc.step, Option.isSome_map']
    exact Lock_some s hw.1 hw.2
  | create role =>
    simp only [Pc.step]
    split <;> rfl
  | construct role =>
    simp only [Pc.step]
    split <;> rfl
  | insert role db => rfl
  | createUser role db exclusive =>
    simp only [Pc.step]
    split <;> rfl
  | userOk resp exclusive =>
    simp only [Pc.step, Option.isSome_map']
    cases exclusive with
    | false => exact RUnlock_some s (by simp only [holdsShared] at hA; omega)
    | true => exact Unlock_some s (hwt (by simp only [holdsExclusive] at hB; omega))
  | returned res =>
    rcases hC with hC | hC | hC
    · simp [holdsExclusive] at hC
    · simp [holdsShared] at hC
    · simp [Pc.isReturned] at hC
  | createFailed role err => exact absurd hok (by simp [Pc.ok])
  | userFailed role err exclusive => exact absurd hok (by simp [Pc.ok])
  | invalidate role err => exact absurd hok (by simp [Pc.ok])
  | invalidateLock role err => exact absurd hok (by simp [Pc.ok])
  | invalidateClear role err => exact absurd hok (by simp [Pc.ok])
  | invalidateUnlock err => exact absurd hok (by simp [Pc.ok])

theorem Sys_step_enabled (env : Env) (i : Nat) (σ : Sys) (t : Thread)
    (ht : σ.threads[i]? = some t) (hs : (t.pc.step env t.req t.name σ.st).isSome = true) :
    ∃ σ1, Sys.step env i σ = some σ1 := by
  unfold Sys.step
  rw [ht]
  simp only
  cases hst : t.pc.step env t.req t.name σ.st with
  | none => rw [hst] at hs; cases hs
  | some r => exact ⟨_, rfl⟩

theorem Inv_progress (env : Env) (dbn : String) (h : Handle) (σ : Sys)
    (hinv : Inv env dbn h σ) (i : Nat) (t : Thread) (ht : σ.threads[i]? = some t)
    (hnot : t.pc.isReturned = false) : ∃ j σ1, Sys.step env j σ = some σ1 := by
  have key : ∀ (j : Nat) (u : Thread), σ.threads[j]? = some u →
      (0 < holdsExclusive u.pc ∨ (σ.st.b.mu.writer = false ∧ 0 < holdsShared u.pc)
        ∨ (σ.st.b.mu.writer = false ∧ σ.st.b.mu.readers = 0 ∧ u.pc.isReturned = false)) →
      ∃ j σ1, Sys.step env j σ = some σ1 := by
    intro j u hu hC
    have hA := le_sum_map (fun t => holdsShared t.pc) σ.threads j u hu
    have hB := le_sum_map (fun t => holdsExclusive t.pc) σ.threads j u hu
    rw [← hinv.readers] at hA
    rw [← hinv.writer] at hB
    obtain ⟨σ1, h1⟩ := Sys_step_enabled env j σ u hu
      (step_some env u.req u.name dbn h u.pc σ.st (hinv.good j u hu).2 hA hB hC)
    exact ⟨j, σ1, h1⟩
  cases hw : σ.st.b.mu.writer with
  | true =>
    have hpos : 0 < (σ.threads.map (fun t => holdsExclusive t.pc)).sum := by
      rw [← hinv.writer, hw]; simp
    obtain ⟨j, u, hu, hx⟩ := exists_pos_of_sum_pos _ _ hpos
    exact key j u hu (Or.inl hx)
  | false =>
    by_cases hr : σ.st.b.mu.readers = 0
    · exact key i t ht (Or.inr (Or.inr ⟨hw, hr, hnot⟩))
    · have hpos : 0 < (σ.threads.map (fun t => holdsShared t.pc)).sum := by
        rw [← hinv.readers]; omega
      obtain ⟨j, u, hu, hx⟩ := exists_pos_of_sum_pos _ _ hpos
      exact key j u hu (Or.inr (Or.inl ⟨hw, hx⟩))

theorem init_sums (b : databaseBackend) (calls : List (Request × String)) :
    ((Sys.init b calls).threads.map (fun t => holdsShared t.pc)).sum = 0
      ∧ ((Sys.init b calls).threads.map (fun t => holdsExclusive t.pc)).sum = 0
      ∧ ((Sys.init b calls).threads.map (fun t => t.pc.rank)).sum = 15 * calls.length := by
  induction calls with
  | nil => simp [Sys.init]
  | cons c cs ih =>
    simp only [Sys.init, List.map_cons, List.sum_cons, List.length_cons, holdsShared,
      holdsExclusive, Pc.rank, List.map_map] at ih ⊢
    refine ⟨by simpa using ih.1, by simpa using ih.2.1, ?_⟩
    have := ih.2.2
    omega

theorem Inv_init (env : Env) (dbn : String) (h : Handle) (b : databaseBackend)
    (calls : List (Request × String)) (hfree : b.mu = ⟨0, false⟩)
    (hnone : lookupConn b.connections dbn = none)
    (hadm : ∀ c ∈ calls, Admitted env dbn c.2) : Inv env dbn h (Sys.init b calls) := by
  obtain ⟨h1, h2, _⟩ := init_sums b calls
  refine ⟨?_, ?_, ?_, ?_, ?_, ?_⟩
  · rw [h1]; simp [Sys.init, hfree]
  · rw [h2]; simp [Sys.init, hfree]
  · simp [Sys.init, PoolOk, hnone, countEv]
  · intro _ _; simp [Sys.init, countEv]
  · intro x hx; simp [Sys.init] at hx
  · intro i t ht
    have hmem : t ∈ (Sys.init b calls).threads := List.getElem?_mem ht
    simp only [Sys.init, List.mem_map] at hmem
    obtain ⟨c, hc, rfl⟩ := hmem
    exact ⟨hadm c hc, trivial⟩

theorem Inv_complete (env : Env) (dbn : String) (h : Handle)
    (hnew : env.newConnection dbn = .ok h)
    (hcu : ∀ st uc ex, ∃ up, env.CreateUser h st uc ex = .ok up)
    (n : Nat) (σ : Sys) (hinv : Inv env dbn h σ)
    (hn : (σ.threads.map (fun t => t.pc.rank)).sum ≤ n) :
    ∃ sched σ1, Sys.exec env sched σ = some σ1
      ∧ ∀ t ∈ σ1.threads, t.pc.isReturned = true := by
  induction n generalizing σ with
  | zero =>
    by_cases hall : ∀ t ∈ σ.threads, t.pc.isReturned = true
    · exact ⟨[], σ, rfl, hall⟩
    · push_neg at hall
      obtain ⟨t, ht, hnot⟩ := hall
      obtain ⟨i, hi⟩ := List.mem_iff_getElem?.1 ht
      obtain ⟨j, σ1, hs⟩ := Inv_progress env dbn h σ hinv i t hi (by simpa using hnot)
      have := (rank_exec env [j] σ σ1 (by simp [Sys.exec, hs])).1
      simp only [List.length_singleton] at this
      omega
  | succ n ih =>
    by_cases hall : ∀ t ∈ σ.threads, t.pc.isReturned = true
    · exact ⟨[], σ, rfl, hall⟩
    · push_neg at hall
      obtain ⟨t, ht, hnot⟩ := hall
      obtain ⟨i, hi⟩ := List.mem_iff_getElem?.1 ht
      obtain ⟨j, σ1, hs⟩ := Inv_progress env dbn h σ hinv i t hi (by simpa using hnot)
      have := (rank_exec env [j] σ σ1 (by simp [Sys.exec, hs])).1
      simp only [List.length_singleton] at this
      obtain ⟨sched, σ2, he, hall2⟩ := ih σ1 (Inv_step env dbn h hnew hcu j σ σ1 hinv hs)
        (by omega)
      exact ⟨j :: sched, σ2, by simp [Sys.exec, hs, he], hall2⟩

theorem Inv_final (env : Env) (dbn : String) (h : Handle) (σ : Sys)
    (hinv : Inv env dbn h σ) (hall : ∀ t ∈ σ.threads, t.pc.isReturned = true)
    (hne : σ.threads ≠ []) :
    countEv (.newConnection dbn) σ.st.log = 1
      ∧ lookupConn σ.st.b.connections dbn = some h
      ∧ σ.st.b.mu = ⟨0, false⟩
      ∧ ∀ t ∈ σ.threads, t.pc.isSuccess = true := by
  have hsucc : ∀ t ∈ σ.threads, t.pc.isSuccess = true
      ∧ lookupConn σ.st.b.connections dbn = some h
      ∧ countEv (.newConnection dbn) σ.st.log = 1
      ∧ holdsShared t.pc = 0 ∧ holdsExclusive t.pc = 0 := by
    intro t ht
    obtain ⟨i, hi⟩ := List.mem_iff_getElem?.1 ht
    have hok := (hinv.good i t hi).2
    have hret := hall t ht
    cases hpc : t.pc with
    | returned res =>
      rw [hpc] at hok
      obtain ⟨⟨resp, rfl, hsec⟩, hlk, hcnt⟩ := hok
      exact ⟨by simp [Pc.isSuccess, hsec], hlk, hcnt, rfl, rfl⟩
    | _ => rw [hpc] at hret; simp [Pc.isReturned] at hret
  obtain ⟨t, ht⟩ := List.exists_mem_of_ne_nil σ.threads hne
  obtain ⟨_, hlk, hcnt, _, _⟩ := hsucc t ht
  have hS : (σ.threads.map (fun t => holdsShared t.pc)).sum = 0 := by
    apply List.sum_eq_zero
    intro x hx
    simp only [List.mem_map] at hx
    obtain ⟨u, hu, rfl⟩ := hx
    exact (hsucc u hu).2.2.2.1
  have hX : (σ.threads.map (fun t => holdsExclusive t.pc)).sum = 0 := by
    apply List.sum_eq_zero
    intro x hx
    simp only [List.mem_map] at hx
    obtain ⟨u, hu, rfl⟩ := hx
    exact (hsucc u hu).2.2.2.2
  have hr := hinv.readers
  have hw := hinv.writer
  rw [hS] at hr
  rw [hX] at hw
  refine ⟨hcnt, hlk, ?_, fun t ht => (hsucc t ht).1⟩
  cases hmu : σ.st.b.mu with
  | mk r w =>
    rw [hmu] at hr hw
    simp only at hr hw
    subst hr
    cases w
    · rfl
    · simp at hw

/-- C9: take any number of calls of `pathCredsCreateRead`, interleaved in any
order on one backend whose lock is free and whose pool has no handle for the
target `dbn`, all for roles of that target that pass the permission gate, in an
environment where the connection is constructed as `h` and `CreateUser`
succeeds on it.  Then at every moment of every interleaving at most one
connection has been constructed for the target and every `CreateUser` call so
far was made on `h`; no interleaving is longer than 15 steps a call; as long as
some call has not returned some call can take a step, and the interleaving can
be continued until all have returned; and once all calls have returned (there
being at least one), exactly one connection has been constructed, the pool maps
the target to `h`, the lock is free and every call has returned a secret with a
nil error. -/
theorem concurrent_calls_create_once (env : Env) (dbn : String) (h : Handle)
    (b : databaseBackend) (calls : List (Request × String))
    (hfree : b.mu = ⟨0, false⟩) (hnone : lookupConn b.connections dbn = none)
    (hadm : ∀ c ∈ calls, Admitted env dbn c.2)
    (hnew : env.newConnection dbn = .ok h)
    (hcu : ∀ st uc ex, ∃ up, env.CreateUser h st uc ex = .ok up)
    (sched : List Nat) (σ : Sys) (hexec : Sys.exec env sched (Sys.init b calls) = some σ) :
    countEv (.newConnection dbn) σ.st.log ≤ 1
      ∧ (∀ x ∈ σ.st.log, ∀ db st uc ex, x.ev = .CreateUser db st uc ex → db = h)
      ∧ sched.length ≤ 15 * calls.length
      ∧ ((∃ t ∈ σ.threads, t.pc.isReturned = false) → ∃ i σ1, Sys.step env i σ = some σ1)
      ∧ (∃ more σ1, Sys.exec env more σ = some σ1 ∧ ∀ t ∈ σ1.threads, t.pc.isReturned = true)
      ∧ ((∀ t ∈ σ.threads, t.pc.isReturned = true) → calls ≠ [] →
          countEv (.newConnection dbn) σ.st.log = 1
            ∧ lookupConn σ.st.b.connections dbn = some h
            ∧ σ.st.b.mu = ⟨0, false⟩
            ∧ σ.threads.length = calls.length
            ∧ ∀ t ∈ σ.threads, t.pc.isSuccess = true) := by
  have hinv0 := Inv_init env dbn h b calls hfree hnone hadm
  have hinv := Inv_exec env dbn h hnew hcu sched _ σ hinv0 hexec
  obtain ⟨hrank, hlen⟩ := rank_exec env sched _ σ hexec
  rw [(init_sums b calls).2.2] at hrank
  have hlen2 : σ.threads.length = calls.length := by
    rw [hlen]; simp [Sys.init]
  refine ⟨hinv.pool.2.1, hinv.users, by omega, ?_, ?_, ?_⟩
  · rintro ⟨t, ht, hnot⟩
    obtain ⟨i, hi⟩ := List.mem_iff_getElem?.1 ht
    exact Inv_progress env dbn h σ hinv i t hi hnot
  · exact Inv_complete env dbn h hnew hcu _ σ hinv le_rfl
  · intro hall hne
    have hne2 : σ.threads ≠ [] := by
      intro h0
      rw [h0] at hlen2
      cases calls with
      | nil => exact hne rfl
      | cons c cs => simp at hlen2
    obtain ⟨h1, h2, h3, h4⟩ := Inv_final env dbn h σ hinv hall hne2
    exact ⟨h1, h2, h3, hlen2, h4⟩

/-- Two calls that both find the pool empty: both call `createDBObj`, one connection
is constructed, both return a secret. -/
theorem concurrent_calls_create_once_witness :
    (countEv (.newConnection "pg") raceFinal.st.log = 1
      ∧ lookupConn raceFinal.st.b.connections "pg" = some 7
      ∧ raceFinal.st.b.mu = ⟨0, false⟩
      ∧ raceFinal.threads.length = raceCalls.length
      ∧ ∀ t ∈ raceFinal.threads, t.pc.isSuccess = true)
    ∧ countEv (.createDBObj "pg") raceFinal.st.log = 2 :=
  ⟨(concurrent_calls_create_once (okEnv Hour Hour) "pg" 7 idleBackend raceCalls rfl rfl
      (by
        intro c hc
        refine ⟨sampleRole Hour Hour, { AllowedRoles := ["read*"] }, ?_, rfl, rfl, ?_⟩
        · simp only [raceCalls, List.mem_cons, List.mem_singleton, List.not_mem_nil,
            or_false] at hc
          rcases hc with rfl | rfl <;> rfl
        · simp only [raceCalls, List.mem_cons, List.mem_singleton, List.not_mem_nil,
            or_false] at hc
          rcases hc with rfl | rfl <;> decide)
      rfl (fun _ _ _ => ⟨_, rfl⟩) raceSchedule raceFinal (by decide)).2.2.2.2.2
      (by decide) (by decide),
    by decide⟩

end Database
